import Mathlib

/-!
Verification development for the annotation-ingestion program `runAll.py`.

The program ingests decoded Google-Vision annotation records into three
stores (a relational SQLite schema, a Neo4j property graph and a MongoDB
document collection) and answers ranking queries over each store.  This
file gives a shallow embedding of the ingestion and query logic of the
source and proves, or refutes, the frozen specification claims about it.

Conventions of the embedding:
  - machine floats (`score`, `latitude`, `longitude`) are embedded as `Int`;
    the program only stores and compares them for equality;
  - a Python `KeyError` raised by an unguarded dictionary access is embedded
    as a `false` success flag; writes performed before the error persist,
    exactly as they do on the undisposed sqlite cursor;
  - SQLite rows are embedded generically as association lists of column
    values, so that `getOrCreateRow` (which receives table name and value
    dictionary at run time) is one definition, as in the source.
-/

/-- A SQL value: string, integer (embedding REAL scores), or NULL. -/
inductive Val where
  | str : String → Val
  | int : Int → Val
  | null : Val
deriving DecidableEq

/-- A value dictionary, as passed to `getOrCreateRow` (`dataDict`). -/
abbrev Dict := List (String × Val)

/-- First binding of key `k` in an association list. -/
def lookupD (l : Dict) (k : String) : Option Val :=
  (l.find? (fun kv => kv.1 == k)).map (fun kv => kv.2)

/-- One stored row: owning table, rowid, and column values. -/
structure Entry where
  table : String
  id : Nat
  row : Dict
deriving DecidableEq

/-- The whole SQLite database, rows in insertion order. -/
abbrev SqlState := List Entry

/-- The columns (with their DEFAULT values) of each table created by
`createSchema`; the `id INTEGER PRIMARY KEY` column is the `Entry.id` field. -/
def schemaOf : String → Dict
  | "image" => [("url", Val.null), ("is_document", Val.int 0)]
  | "label" => [("mid", Val.null), ("description", Val.null)]
  | "image_tagged_label" =>
      [("image_id", Val.null), ("label_id", Val.null), ("score", Val.null)]
  | "page" => [("url", Val.null)]
  | "landmark" => [("mid", Val.null), ("description", Val.null)]
  | "location" => [("latitude", Val.null), ("longitude", Val.null)]
  | "web_entity" => [("entity_id", Val.null), ("description", Val.null)]
  | "image_in_page" => [("image_id", Val.null), ("page_id", Val.null)]
  | "image_matches_image" =>
      [("image_id1", Val.null), ("image_id2", Val.null), ("type", Val.null)]
  | "image_contains_landmark" =>
      [("image_id", Val.null), ("landmark_id", Val.null), ("score", Val.null)]
  | "image_tagged_web_entity" =>
      [("image_id", Val.null), ("web_entity_id", Val.null), ("score", Val.null)]
  | "landmark_located_at_location" =>
      [("landmark_id", Val.null), ("location_id", Val.null)]
  | _ => []

/-- The WHERE clause of `getOrCreateRow`: the row satisfies every
`"k" = :k` conjunct of the supplied dictionary. -/
def rowMatches (row : Dict) (d : Dict) : Bool :=
  d.all (fun kv => decide (lookupD row kv.1 = some kv.2))

/-- The SELECT of `getOrCreateRow`: id of the first row of table `t`
matching all supplied values. -/
def findRow (s : SqlState) (t : String) (d : Dict) : Option Nat :=
  (s.find? (fun e => e.table == t && rowMatches e.row d)).map (fun e => e.id)

/-- Next INTEGER PRIMARY KEY value of table `t`. -/
def nextId (s : SqlState) (t : String) : Nat :=
  (s.filter (fun e => e.table == t)).length + 1

/-- The row built by the INSERT of `getOrCreateRow`: listed columns take the
dictionary value, all other columns their DEFAULT. -/
def mkRow (t : String) (d : Dict) : Dict :=
  (schemaOf t).map (fun c => (c.1, (lookupD d c.1).getD c.2))

/-- `getOrCreateRow(cursor, table, dataDict)`: SELECT by all supplied values;
if found return the id, else INSERT and re-run the same SELECT.  The final
`raise` branch of the source is embedded as a `none` result. -/
def getOrCreateRow (s : SqlState) (t : String) (d : Dict) : SqlState × Option Nat :=
  match findRow s t d with
  | some i => (s, some i)
  | none =>
    match findRow (s ++ [⟨t, nextId s t, mkRow t d⟩]) t d with
    | some i => (s ++ [⟨t, nextId s t, mkRow t d⟩], some i)
    | none => (s ++ [⟨t, nextId s t, mkRow t d⟩], none)

/-- A dictionary is valid for table `t` when its keys are distinct columns
of `t` — true of every call the program makes. -/
def validDict (t : String) (d : Dict) : Prop :=
  (d.map Prod.fst).Nodup ∧ ∀ k ∈ d.map Prod.fst, k ∈ (schemaOf t).map Prod.fst

instance (t : String) (d : Dict) : Decidable (validDict t d) := by
  unfold validDict; infer_instance

/-- `s2` is `s` extended by appended rows (all mutation is appending). -/
def DbExt (s s2 : SqlState) : Prop := ∃ t, s2 = s ++ t

theorem ext_refl (s : SqlState) : DbExt s s := ⟨[], by simp⟩

theorem ext_trans {s1 s2 s3 : SqlState} (h1 : DbExt s1 s2) (h2 : DbExt s2 s3) :
    DbExt s1 s3 := by
  obtain ⟨t1, rfl⟩ := h1
  obtain ⟨t2, rfl⟩ := h2
  exact ⟨t1 ++ t2, by simp⟩

theorem ext_app (s t : SqlState) : DbExt s (s ++ t) := ⟨t, rfl⟩

/-- In assoc lists with distinct keys, membership determines lookup. -/
theorem lookupD_eq_of_mem {l : Dict} {k : String} {v : Val}
    (hn : (l.map Prod.fst).Nodup) (hm : (k, v) ∈ l) : lookupD l k = some v := by
  induction l with
  | nil => simp at hm
  | cons a l ih =>
    simp only [List.map_cons, List.nodup_cons] at hn
    rcases List.mem_cons.mp hm with h | h
    · subst h
      simp [lookupD]
    · have hk : k ∈ l.map Prod.fst := List.mem_map.mpr ⟨(k, v), h, rfl⟩
      have hne : a.1 ≠ k := fun he => hn.1 (he ▸ hk)
      have : (a.1 == k) = false := by simp [hne]
      simp only [lookupD, List.find?_cons, this]
      exact ih hn.2 h

/-- Lookup in a key-preserving remap of an association list. -/
theorem lookupD_map_keys (l : Dict) (f : String × Val → Val) (k : String) :
    lookupD (l.map (fun c => (c.1, f c))) k
      = (l.find? (fun c => c.1 == k)).map f := by
  induction l with
  | nil => simp [lookupD]
  | cons a l ih =>
    by_cases hak : a.1 == k
    · simp [lookupD, List.find?_cons, hak]
    · have hak2 : (a.1 == k) = false := by simpa using hak
      simp only [List.map_cons, lookupD, List.find?_cons, hak2]
      exact ih

/-- Looking up a schema column in the freshly built row gives the dictionary
value (falling back to the default). -/
theorem lookupD_mkRow {t : String} {k : String} {d : Dict}
    (hk : k ∈ (schemaOf t).map Prod.fst) :
    ∃ dv, lookupD (mkRow t d) k = some ((lookupD d k).getD dv) := by
  obtain ⟨c, hc, hck⟩ := List.mem_map.mp hk
  unfold mkRow
  rw [lookupD_map_keys]
  have hsome : ((schemaOf t).find? (fun c => c.1 == k)).isSome := by
    rw [List.find?_isSome]
    exact ⟨c, hc, by simp [hck]⟩
  obtain ⟨c2, hc2⟩ := Option.isSome_iff_exists.mp hsome
  have hc2k : c2.1 = k := by
    have := List.find?_some hc2
    simpa using this
  refine ⟨c2.2, ?_⟩
  rw [hc2]
  simp [hc2k]

/-- The inserted row satisfies the SELECT of a valid dictionary: the
re-executed SELECT of `getOrCreateRow` matches its own INSERT. -/
theorem rowMatches_mkRow {t : String} {d : Dict} (hv : validDict t d) :
    rowMatches (mkRow t d) d = true := by
  rw [rowMatches, List.all_eq_true]
  intro kv hkv
  have hk : kv.1 ∈ (schemaOf t).map Prod.fst :=
    hv.2 kv.1 (List.mem_map.mpr ⟨kv, hkv, rfl⟩)
  obtain ⟨dv, hdv⟩ := lookupD_mkRow (d := d) hk
  have hl : lookupD d kv.1 = some kv.2 := lookupD_eq_of_mem hv.1 hkv
  simp [hdv, hl]

/-- A successful SELECT survives appending rows (first match is stable). -/
theorem findRow_ext {s s2 : SqlState} {t : String} {d : Dict} {i : Nat}
    (h : findRow s t d = some i) (he : DbExt s s2) : findRow s2 t d = some i := by
  obtain ⟨ext, rfl⟩ := he
  unfold findRow at h ⊢
  obtain ⟨e, he1, he2⟩ := Option.map_eq_some'.mp h
  rw [List.find?_append, he1]
  simp [he2]

theorem findRow_append_none {s ext : SqlState} {t : String} {d : Dict}
    (h : findRow s t d = none) :
    findRow (s ++ ext) t d = findRow ext t d := by
  unfold findRow at h ⊢
  rw [List.find?_append]
  simp only [Option.map_eq_none'] at h
  rw [h]
  simp

/-- `getOrCreateRow` only appends. -/
theorem gocr_ext (s : SqlState) (t : String) (d : Dict) :
    DbExt s (getOrCreateRow s t d).1 := by
  unfold getOrCreateRow
  split
  · exact ext_refl s
  · split <;> exact ext_app s _

/-- With a found row, `getOrCreateRow` is read-only. -/
theorem gocr_found {s : SqlState} {t : String} {d : Dict} {i : Nat}
    (h : findRow s t d = some i) : getOrCreateRow s t d = (s, some i) := by
  unfold getOrCreateRow
  rw [h]

/-- After a successful `getOrCreateRow`, the SELECT finds the returned id. -/
theorem gocr_post {s s2 : SqlState} {t : String} {d : Dict} {i : Nat}
    (h : getOrCreateRow s t d = (s2, some i)) : findRow s2 t d = some i := by
  unfold getOrCreateRow at h
  split at h
  · rename_i j hj
    simp only [Prod.mk.injEq, Option.some.injEq] at h
    obtain ⟨rfl, rfl⟩ := h
    exact hj
  · rename_i hn
    split at h
    · rename_i j hj
      simp only [Prod.mk.injEq, Option.some.injEq] at h
      obtain ⟨rfl, rfl⟩ := h
      exact hj
    · simp at h

/-- Replaying a successful `getOrCreateRow` on any extension of its result
state is a read-only no-op returning the same id. -/
theorem gocr_replay {s s1 s2 : SqlState} {t : String} {d : Dict} {i : Nat}
    (h : getOrCreateRow s t d = (s1, some i)) (he : DbExt s1 s2) :
    getOrCreateRow s2 t d = (s2, some i) :=
  gocr_found (findRow_ext (gocr_post h) he)

/-- C10 core: with a valid dictionary, `getOrCreateRow` always returns an id —
the re-executed SELECT always finds the row just inserted, so the final
`raise` of the source is unreachable. -/
theorem gocr_total (s : SqlState) {t : String} {d : Dict} (hv : validDict t d) :
    ∃ i, getOrCreateRow s t d = ((getOrCreateRow s t d).1, some i) := by
  unfold getOrCreateRow
  cases hf : findRow s t d with
  | some i => exact ⟨i, rfl⟩
  | none =>
    have hmatch : findRow (s ++ [⟨t, nextId s t, mkRow t d⟩]) t d
        = some (nextId s t) := by
      rw [findRow_append_none hf]
      unfold findRow
      simp [rowMatches_mkRow hv]
    rw [hmatch]
    exact ⟨nextId s t, rfl⟩

/-! ## The decoded record shape (section 4.1 of the spec)

A decoded annotation record: a top-level `url` and a `response` object.
Optional JSON fields are embedded as `Option`; the program accesses some of
them unguarded (`labelAnnotations`, `webDetection`, `webEntities`), which the
embedding reflects as failure. -/

/-- A geographic position `locations[i].latLng`. -/
structure LatLng where
  latitude : Int
  longitude : Int
deriving DecidableEq

/-- One element of `labelAnnotations` (all fields always read). -/
structure LabelAnn where
  mid : String
  description : String
  score : Int
deriving DecidableEq

/-- One element of `fullMatchingImages`, `partialMatchingImages` or
`pagesWithMatchingImages`: only `url` is read. -/
structure MatchRef where
  url : String
deriving DecidableEq

/-- One element of `webDetection.webEntities`; `description` may be absent. -/
structure WebEnt where
  entityId : String
  description : Option String
  score : Int
deriving DecidableEq

/-- One element of `landmarkAnnotations`; `description` may be absent. -/
structure LandmarkAnn where
  mid : String
  description : Option String
  score : Int
  locations : List LatLng
deriving DecidableEq

/-- The `response.webDetection` object with its four optional arrays. -/
structure WebDetection where
  fullMatchingImages : Option (List MatchRef)
  partialMatchingImages : Option (List MatchRef)
  pagesWithMatchingImages : Option (List MatchRef)
  webEntities : Option (List WebEnt)
deriving DecidableEq

/-- The `response` object of a record. -/
structure Response where
  labelAnnotations : Option (List LabelAnn)
  webDetection : Option WebDetection
  landmarkAnnotations : Option (List LandmarkAnn)
deriving DecidableEq

/-- One decoded JSON record. -/
structure Rec where
  url : String
  response : Response
deriving DecidableEq

/-! ## SQLite ingestion (`insertImage`, `populateSqlite`)

Each loop body of `insertImage` becomes a step function
`SqlState → item → SqlState × Bool`; the `Bool` is the success flag (`false`
embeds a raised exception, with all writes so far kept). -/

/-- Run `f` over the list, aborting on the first failure (a raised exception
stops the loop; earlier writes persist). -/
def foldE {α : Type} (f : SqlState → α → SqlState × Bool) :
    SqlState → List α → SqlState × Bool
  | s, [] => (s, true)
  | s, a :: as =>
    match f s a with
    | (s2, true) => foldE f s2 as
    | (s2, false) => (s2, false)

/-- An array the source reads unguarded: absence raises `KeyError`. -/
def reqFold {α : Type} (f : SqlState → α → SqlState × Bool) (s : SqlState) :
    Option (List α) → SqlState × Bool
  | none => (s, false)
  | some l => foldE f s l

/-- An array the source guards with an `in` test: absence skips the loop. -/
def optFold {α : Type} (f : SqlState → α → SqlState × Bool) (s : SqlState) :
    Option (List α) → SqlState × Bool
  | none => (s, true)
  | some l => foldE f s l

/-- Sequence two stages; a failure short-circuits. -/
def seqB (p : SqlState × Bool) (f : SqlState → SqlState × Bool) : SqlState × Bool :=
  match p with
  | (s, true) => f s
  | (s, false) => (s, false)

/-- Common shape of the loop bodies: resolve one entity, then resolve one
edge whose dictionary embeds the entity id just obtained.  A `none` id (the
unreachable `raise`) aborts. -/
def pairStep (t1 : String) (d1 : Dict) (t2 : String) (d2 : Nat → Dict)
    (s : SqlState) : SqlState × Bool :=
  match getOrCreateRow s t1 d1 with
  | (s1, none) => (s1, false)
  | (s1, some i) =>
    match getOrCreateRow s1 t2 (d2 i) with
    | (s2, none) => (s2, false)
    | (s2, some _) => (s2, true)

/-- Body of the `labelAnnotations` loop. -/
def insertLabelAnn (imageId : Nat) (s : SqlState) (ann : LabelAnn) :
    SqlState × Bool :=
  pairStep "label"
    [("mid", Val.str ann.mid), ("description", Val.str ann.description)]
    "image_tagged_label"
    (fun labelId =>
      [("image_id", Val.int imageId), ("label_id", Val.int labelId),
       ("score", Val.int ann.score)]) s

/-- Body of the `fullMatchingImages` / `partialMatchingImages` loops; note the
matched image is resolved by `url` alone, without `is_document`. -/
def insertMatchRef (imageId : Nat) (ty : String) (s : SqlState) (mi : MatchRef) :
    SqlState × Bool :=
  pairStep "image" [("url", Val.str mi.url)]
    "image_matches_image"
    (fun imageId2 =>
      [("image_id1", Val.int imageId), ("image_id2", Val.int imageId2),
       ("type", Val.str ty)]) s

/-- Body of the `pagesWithMatchingImages` loop. -/
def insertPageRef (imageId : Nat) (s : SqlState) (pmi : MatchRef) :
    SqlState × Bool :=
  pairStep "page" [("url", Val.str pmi.url)]
    "image_in_page"
    (fun pageId =>
      [("image_id", Val.int imageId), ("page_id", Val.int pageId)]) s

/-- Body of the `webEntities` loop (missing `description` becomes `""`). -/
def insertWebEnt (imageId : Nat) (s : SqlState) (ent : WebEnt) :
    SqlState × Bool :=
  pairStep "web_entity"
    [("entity_id", Val.str ent.entityId),
     ("description", Val.str (ent.description.getD ""))]
    "image_tagged_web_entity"
    (fun webEntityId =>
      [("image_id", Val.int imageId), ("web_entity_id", Val.int webEntityId),
       ("score", Val.int ent.score)]) s

/-- Body of the `locations` loop nested in a landmark annotation. -/
def insertLocation (landmarkId : Nat) (s : SqlState) (loc : LatLng) :
    SqlState × Bool :=
  pairStep "location"
    [("latitude", Val.int loc.latitude), ("longitude", Val.int loc.longitude)]
    "landmark_located_at_location"
    (fun locationId =>
      [("landmark_id", Val.int landmarkId), ("location_id", Val.int locationId)]) s

/-- Body of the `landmarkAnnotations` loop (missing `description` becomes `""`). -/
def insertLandmarkAnn (imageId : Nat) (s : SqlState) (lma : LandmarkAnn) :
    SqlState × Bool :=
  match getOrCreateRow s "landmark"
      [("mid", Val.str lma.mid),
       ("description", Val.str (lma.description.getD ""))] with
  | (s1, none) => (s1, false)
  | (s1, some landmarkId) =>
    match getOrCreateRow s1 "image_contains_landmark"
        [("image_id", Val.int imageId), ("landmark_id", Val.int landmarkId),
         ("score", Val.int lma.score)] with
    | (s2, none) => (s2, false)
    | (s2, some _) => foldE (insertLocation landmarkId) s2 lma.locations

/-- `insertImage(cursor, jsonData)`: resolve the source image (marked
`is_document = 1`), then process the arrays in source order.
`labelAnnotations`, `webDetection` and `webEntities` are accessed unguarded
(absence fails); the other arrays are guarded by an `in` test. -/
def insertImage (s : SqlState) (r : Rec) : SqlState × Bool :=
  match getOrCreateRow s "image"
      [("url", Val.str r.url), ("is_document", Val.int 1)] with
  | (s1, none) => (s1, false)
  | (s1, some imageId) =>
    seqB (reqFold (insertLabelAnn imageId) s1 r.response.labelAnnotations) (fun s2 =>
      match r.response.webDetection with
      | none => (s2, false)
      | some wd =>
        seqB (optFold (insertMatchRef imageId "full") s2 wd.fullMatchingImages) (fun s3 =>
        seqB (optFold (insertMatchRef imageId "partial") s3 wd.partialMatchingImages) (fun s4 =>
        seqB (optFold (insertPageRef imageId) s4 wd.pagesWithMatchingImages) (fun s5 =>
        seqB (reqFold (insertWebEnt imageId) s5 wd.webEntities) (fun s6 =>
          optFold (insertLandmarkAnn imageId) s6 r.response.landmarkAnnotations)))))

/-- `populateSqlite`: ingest each record in turn.  There is no exception
handling, so the first failing record propagates and aborts the whole loop
(`none`); on success the count of loaded records is returned. -/
def populateSqlite (s : SqlState) : List Rec → SqlState × Option Nat
  | [] => (s, some 0)
  | r :: rs =>
    match insertImage s r with
    | (s1, true) =>
      match populateSqlite s1 rs with
      | (s2, some n) => (s2, some (n + 1))
      | (s2, none) => (s2, none)
    | (s1, false) => (s1, none)

/-! ## Extension lemmas: ingestion only appends rows -/

theorem pairStep_ext (t1 : String) (d1 : Dict) (t2 : String) (d2 : Nat → Dict)
    (s : SqlState) : DbExt s (pairStep t1 d1 t2 d2 s).1 := by
  unfold pairStep
  split
  · rename_i s1 hg1
    have := gocr_ext s t1 d1
    rw [hg1] at this
    exact this
  · rename_i s1 i hg1
    have he1 : DbExt s s1 := by
      have := gocr_ext s t1 d1
      rw [hg1] at this
      exact this
    split
    · rename_i s2 hg2
      have he2 : DbExt s1 s2 := by
        have := gocr_ext s1 t2 (d2 i)
        rw [hg2] at this
        exact this
      exact ext_trans he1 he2
    · rename_i s2 v hg2
      have he2 : DbExt s1 s2 := by
        have := gocr_ext s1 t2 (d2 i)
        rw [hg2] at this
        exact this
      exact ext_trans he1 he2

theorem foldE_ext {α : Type} (f : SqlState → α → SqlState × Bool)
    (hf : ∀ s a, DbExt s (f s a).1) :
    ∀ (l : List α) (s : SqlState), DbExt s (foldE f s l).1 := by
  intro l
  induction l with
  | nil => intro s; exact ext_refl s
  | cons a as ih =>
    intro s
    unfold foldE
    rcases hfa : f s a with ⟨s1, b⟩
    have h1 : DbExt s s1 := by have := hf s a; rw [hfa] at this; exact this
    cases b
    · exact h1
    · exact ext_trans h1 (ih s1)

theorem reqFold_ext {α : Type} (f : SqlState → α → SqlState × Bool)
    (hf : ∀ s a, DbExt s (f s a).1) (s : SqlState) (o : Option (List α)) :
    DbExt s (reqFold f s o).1 := by
  cases o
  · exact ext_refl s
  · exact foldE_ext f hf _ s

theorem optFold_ext {α : Type} (f : SqlState → α → SqlState × Bool)
    (hf : ∀ s a, DbExt s (f s a).1) (s : SqlState) (o : Option (List α)) :
    DbExt s (optFold f s o).1 := by
  cases o
  · exact ext_refl s
  · exact foldE_ext f hf _ s

theorem insertLabelAnn_ext (i : Nat) (s : SqlState) (a : LabelAnn) :
    DbExt s (insertLabelAnn i s a).1 := pairStep_ext ..

theorem insertMatchRef_ext (i : Nat) (ty : String) (s : SqlState) (a : MatchRef) :
    DbExt s (insertMatchRef i ty s a).1 := pairStep_ext ..

theorem insertPageRef_ext (i : Nat) (s : SqlState) (a : MatchRef) :
    DbExt s (insertPageRef i s a).1 := pairStep_ext ..

theorem insertWebEnt_ext (i : Nat) (s : SqlState) (a : WebEnt) :
    DbExt s (insertWebEnt i s a).1 := pairStep_ext ..

theorem insertLocation_ext (i : Nat) (s : SqlState) (a : LatLng) :
    DbExt s (insertLocation i s a).1 := pairStep_ext ..

theorem insertLandmarkAnn_ext (i : Nat) (s : SqlState) (a : LandmarkAnn) :
    DbExt s (insertLandmarkAnn i s a).1 := by
  unfold insertLandmarkAnn
  split
  · rename_i s1 hg1
    have := gocr_ext s "landmark"
      [("mid", Val.str a.mid), ("description", Val.str (a.description.getD ""))]
    rw [hg1] at this
    exact this
  · rename_i s1 landmarkId hg1
    have he1 : DbExt s s1 := by
      have := gocr_ext s "landmark"
        [("mid", Val.str a.mid), ("description", Val.str (a.description.getD ""))]
      rw [hg1] at this
      exact this
    split
    · rename_i s2 hg2
      have he2 : DbExt s1 s2 := by
        have := gocr_ext s1 "image_contains_landmark"
          [("image_id", Val.int i), ("landmark_id", Val.int landmarkId),
           ("score", Val.int a.score)]
        rw [hg2] at this
        exact this
      exact ext_trans he1 he2
    · rename_i s2 v hg2
      have he2 : DbExt s1 s2 := by
        have := gocr_ext s1 "image_contains_landmark"
          [("image_id", Val.int i), ("landmark_id", Val.int landmarkId),
           ("score", Val.int a.score)]
        rw [hg2] at this
        exact this
      exact ext_trans he1 (ext_trans he2
        (foldE_ext _ (insertLocation_ext landmarkId) a.locations s2))

theorem seqB_ext (p : SqlState × Bool) (f : SqlState → SqlState × Bool)
    (hp : DbExt s p.1) (hf : ∀ s0, DbExt s0 (f s0).1) :
    DbExt s (seqB p f).1 := by
  rcases p with ⟨sp, b⟩
  cases b
  · exact hp
  · exact ext_trans hp (hf sp)

theorem insertImage_ext (s : SqlState) (r : Rec) : DbExt s (insertImage s r).1 := by
  unfold insertImage
  rcases hg1 : getOrCreateRow s "image" _ with ⟨s1, o1⟩
  have he1 : DbExt s s1 := by
    have := gocr_ext s "image" [("url", Val.str r.url), ("is_document", Val.int 1)]
    rw [hg1] at this
    exact this
  cases o1 with
  | none => exact he1
  | some imageId =>
    apply seqB_ext _ _ (ext_trans he1
      (reqFold_ext _ (insertLabelAnn_ext imageId) s1 r.response.labelAnnotations))
    intro s2
    cases r.response.webDetection with
    | none => exact ext_refl s2
    | some wd =>
      apply seqB_ext _ _ (optFold_ext _ (insertMatchRef_ext imageId "full") s2
        wd.fullMatchingImages)
      intro s3
      apply seqB_ext _ _ (optFold_ext _ (insertMatchRef_ext imageId "partial") s3
        wd.partialMatchingImages)
      intro s4
      apply seqB_ext _ _ (optFold_ext _ (insertPageRef_ext imageId) s4
        wd.pagesWithMatchingImages)
      intro s5
      apply seqB_ext _ _ (reqFold_ext _ (insertWebEnt_ext imageId) s5 wd.webEntities)
      intro s6
      exact optFold_ext _ (insertLandmarkAnn_ext imageId) s6
        r.response.landmarkAnnotations

theorem populateSqlite_ext (rs : List Rec) (s : SqlState) :
    DbExt s (populateSqlite s rs).1 := by
  induction rs generalizing s with
  | nil => exact ext_refl s
  | cons r rs ih =>
    unfold populateSqlite
    split
    · rename_i s1 hi
      have h1 : DbExt s s1 := by
        have := insertImage_ext s r; rw [hi] at this; exact this
      split
      · rename_i s2 n hp
        have h2 : DbExt s1 s2 := by have := ih s1; rw [hp] at this; exact this
        exact ext_trans h1 h2
      · rename_i s2 hp
        have h2 : DbExt s1 s2 := by have := ih s1; rw [hp] at this; exact this
        exact ext_trans h1 h2
    · rename_i s1 hi
      have h1 : DbExt s s1 := by
        have := insertImage_ext s r; rw [hi] at this; exact this
      exact h1

/-! ## Replay lemmas: a successful ingestion replayed on any extension of its
result state is a read-only no-op (the core of idempotence) -/

theorem seqB_true_elim {p : SqlState × Bool} {f : SqlState → SqlState × Bool}
    {s1 : SqlState} (h : seqB p f = (s1, true)) :
    ∃ sm, p = (sm, true) ∧ f sm = (s1, true) := by
  rcases p with ⟨sp, b⟩
  cases b
  · simp [seqB] at h
  · exact ⟨sp, rfl, h⟩

theorem reqFold_true_elim {α : Type} {f : SqlState → α → SqlState × Bool}
    {s : SqlState} {o : Option (List α)} {s1 : SqlState}
    (h : reqFold f s o = (s1, true)) :
    ∃ l, o = some l ∧ foldE f s l = (s1, true) := by
  cases o with
  | none => simp [reqFold] at h
  | some l => exact ⟨l, rfl, h⟩

theorem pairStep_replay {t1 : String} {d1 : Dict} {t2 : String} {d2 : Nat → Dict}
    {s s1 s2 : SqlState} (h : pairStep t1 d1 t2 d2 s = (s1, true))
    (he : DbExt s1 s2) : pairStep t1 d1 t2 d2 s2 = (s2, true) := by
  unfold pairStep at h ⊢
  split at h
  · simp at h
  · rename_i sa i hg1
    split at h
    · simp at h
    · rename_i sb j hg2
      simp only [Prod.mk.injEq] at h
      obtain ⟨rfl, -⟩ := h
      have heb : DbExt sa sb := by
        have := gocr_ext sa t2 (d2 i)
        rw [hg2] at this
        exact this
      have hc1 : getOrCreateRow s2 t1 d1 = (s2, some i) :=
        gocr_replay hg1 (ext_trans heb he)
      have hc2 : getOrCreateRow s2 t2 (d2 i) = (s2, some j) :=
        gocr_replay hg2 he
      split
      · rename_i sx hgx
        rw [hc1] at hgx
        simp at hgx
      · rename_i sx ix hgx
        rw [hc1] at hgx
        simp only [Prod.mk.injEq, Option.some.injEq] at hgx
        obtain ⟨rfl, rfl⟩ := hgx
        split
        · rename_i sy hgy
          rw [hc2] at hgy
          simp at hgy
        · rename_i sy vy hgy
          rw [hc2] at hgy
          simp only [Prod.mk.injEq, Option.some.injEq] at hgy
          obtain ⟨rfl, rfl⟩ := hgy
          rfl

theorem insertLabelAnn_replay (i : Nat) :
    ∀ (s : SqlState) (a : LabelAnn) (s1 s2 : SqlState),
      insertLabelAnn i s a = (s1, true) → DbExt s1 s2 →
      insertLabelAnn i s2 a = (s2, true) :=
  fun _ _ _ _ h he => pairStep_replay h he

theorem insertMatchRef_replay (i : Nat) (ty : String) :
    ∀ (s : SqlState) (a : MatchRef) (s1 s2 : SqlState),
      insertMatchRef i ty s a = (s1, true) → DbExt s1 s2 →
      insertMatchRef i ty s2 a = (s2, true) :=
  fun _ _ _ _ h he => pairStep_replay h he

theorem insertPageRef_replay (i : Nat) :
    ∀ (s : SqlState) (a : MatchRef) (s1 s2 : SqlState),
      insertPageRef i s a = (s1, true) → DbExt s1 s2 →
      insertPageRef i s2 a = (s2, true) :=
  fun _ _ _ _ h he => pairStep_replay h he

theorem insertWebEnt_replay (i : Nat) :
    ∀ (s : SqlState) (a : WebEnt) (s1 s2 : SqlState),
      insertWebEnt i s a = (s1, true) → DbExt s1 s2 →
      insertWebEnt i s2 a = (s2, true) :=
  fun _ _ _ _ h he => pairStep_replay h he

theorem insertLocation_replay (i : Nat) :
    ∀ (s : SqlState) (a : LatLng) (s1 s2 : SqlState),
      insertLocation i s a = (s1, true) → DbExt s1 s2 →
      insertLocation i s2 a = (s2, true) :=
  fun _ _ _ _ h he => pairStep_replay h he

theorem foldE_replay {α : Type} (f : SqlState → α → SqlState × Bool)
    (hext : ∀ s a, DbExt s (f s a).1)
    (hrep : ∀ s a s1 s2, f s a = (s1, true) → DbExt s1 s2 → f s2 a = (s2, true)) :
    ∀ {l : List α} {s s1 s2 : SqlState},
      foldE f s l = (s1, true) → DbExt s1 s2 → foldE f s2 l = (s2, true) := by
  intro l
  induction l with
  | nil =>
    intro s s1 s2 h he
    unfold foldE at h
    simp only [Prod.mk.injEq] at h
    obtain ⟨rfl, -⟩ := h
    rfl
  | cons a as ih =>
    intro s s1 s2 h he
    unfold foldE at h ⊢
    split at h
    · rename_i sa hfa
      have hea : DbExt sa s1 := by
        have := foldE_ext f hext as sa
        rw [h] at this
        exact this
      have hfa2 : f s2 a = (s2, true) := hrep s a sa s2 hfa (ext_trans hea he)
      rw [hfa2]
      exact ih h he
    · rename_i sa hfa
      simp at h

theorem reqFold_true_replay {α : Type} (f : SqlState → α → SqlState × Bool)
    (hext : ∀ s a, DbExt s (f s a).1)
    (hrep : ∀ s a s1 s2, f s a = (s1, true) → DbExt s1 s2 → f s2 a = (s2, true))
    {s s1 s2 : SqlState} {o : Option (List α)}
    (h : reqFold f s o = (s1, true)) (he : DbExt s1 s2) :
    reqFold f s2 o = (s2, true) := by
  cases o with
  | none => simp [reqFold] at h
  | some l => exact foldE_replay f hext hrep h he

theorem optFold_true_replay {α : Type} (f : SqlState → α → SqlState × Bool)
    (hext : ∀ s a, DbExt s (f s a).1)
    (hrep : ∀ s a s1 s2, f s a = (s1, true) → DbExt s1 s2 → f s2 a = (s2, true))
    {s s1 s2 : SqlState} {o : Option (List α)}
    (h : optFold f s o = (s1, true)) (he : DbExt s1 s2) :
    optFold f s2 o = (s2, true) := by
  cases o with
  | none => rfl
  | some l => exact foldE_replay f hext hrep h he

theorem insertLandmarkAnn_replay (i : Nat) :
    ∀ (s : SqlState) (a : LandmarkAnn) (s1 s2 : SqlState),
      insertLandmarkAnn i s a = (s1, true) → DbExt s1 s2 →
      insertLandmarkAnn i s2 a = (s2, true) := by
  intro s a s1 s2 h he
  unfold insertLandmarkAnn at h ⊢
  split at h
  · simp at h
  · rename_i sa landmarkId hg1
    split at h
    · simp at h
    · rename_i sb v hg2
      have heb : DbExt sb s1 := by
        have := foldE_ext _ (insertLocation_ext landmarkId) a.locations sb
        rw [h] at this
        exact this
      have hea : DbExt sa sb := by
        have := gocr_ext sa "image_contains_landmark"
          [("image_id", Val.int i), ("landmark_id", Val.int landmarkId),
           ("score", Val.int a.score)]
        rw [hg2] at this
        exact this
      have hc1 : getOrCreateRow s2 "landmark"
          [("mid", Val.str a.mid), ("description", Val.str (a.description.getD ""))]
          = (s2, some landmarkId) :=
        gocr_replay hg1 (ext_trans hea (ext_trans heb he))
      have hc2 : getOrCreateRow s2 "image_contains_landmark"
          [("image_id", Val.int i), ("landmark_id", Val.int landmarkId),
           ("score", Val.int a.score)] = (s2, some v) :=
        gocr_replay hg2 (ext_trans heb he)
      have hc3 : foldE (insertLocation landmarkId) s2 a.locations = (s2, true) :=
        foldE_replay _ (insertLocation_ext landmarkId)
          (insertLocation_replay landmarkId) h he
      split
      · rename_i sx hgx
        rw [hc1] at hgx
        simp at hgx
      · rename_i sx lid2 hgx
        rw [hc1] at hgx
        simp only [Prod.mk.injEq, Option.some.injEq] at hgx
        obtain ⟨rfl, rfl⟩ := hgx
        split
        · rename_i sy hgy
          rw [hc2] at hgy
          simp at hgy
        · rename_i sy vy hgy
          rw [hc2] at hgy
          simp only [Prod.mk.injEq, Option.some.injEq] at hgy
          obtain ⟨rfl, rfl⟩ := hgy
          exact hc3

theorem insertImage_replay {s s1 s2 : SqlState} {r : Rec}
    (h : insertImage s r = (s1, true)) (he : DbExt s1 s2) :
    insertImage s2 r = (s2, true) := by
  unfold insertImage at h ⊢
  split at h
  · simp at h
  · rename_i sa imageId hg1
    obtain ⟨sb, hreq, hk⟩ := seqB_true_elim h
    obtain ⟨la, hla, hfl⟩ := reqFold_true_elim hreq
    cases hwd : r.response.webDetection with
    | none =>
      rw [hwd] at hk
      simp at hk
    | some wd =>
      rw [hwd] at hk
      obtain ⟨sc, hfull, hk2⟩ := seqB_true_elim hk
      obtain ⟨sd, hpart, hk3⟩ := seqB_true_elim hk2
      obtain ⟨se2, hpage, hk4⟩ := seqB_true_elim hk3
      obtain ⟨sf, hwe, hlands⟩ := seqB_true_elim hk4
      have hlands2 : optFold (insertLandmarkAnn imageId) sf
          r.response.landmarkAnnotations = (s1, true) := hlands
      have e1 : DbExt sa sb := by
        have := foldE_ext _ (insertLabelAnn_ext imageId) la sa
        rw [hfl] at this
        exact this
      have e2 : DbExt sb sc := by
        have := optFold_ext _ (insertMatchRef_ext imageId "full") sb
          wd.fullMatchingImages
        rw [hfull] at this
        exact this
      have e3 : DbExt sc sd := by
        have := optFold_ext _ (insertMatchRef_ext imageId "partial") sc
          wd.partialMatchingImages
        rw [hpart] at this
        exact this
      have e4 : DbExt sd se2 := by
        have := optFold_ext _ (insertPageRef_ext imageId) sd
          wd.pagesWithMatchingImages
        rw [hpage] at this
        exact this
      have e5 : DbExt se2 sf := by
        have := reqFold_ext _ (insertWebEnt_ext imageId) se2 wd.webEntities
        rw [hwe] at this
        exact this
      have e6 : DbExt sf s1 := by
        have := optFold_ext _ (insertLandmarkAnn_ext imageId) sf
          r.response.landmarkAnnotations
        rw [hlands2] at this
        exact this
      have cf : DbExt sf s2 := ext_trans e6 he
      have ce : DbExt se2 s2 := ext_trans e5 cf
      have cd : DbExt sd s2 := ext_trans e4 ce
      have cc : DbExt sc s2 := ext_trans e3 cd
      have cb : DbExt sb s2 := ext_trans e2 cc
      have ca : DbExt sa s2 := ext_trans e1 cb
      have hreq2 : reqFold (insertLabelAnn imageId) s2
          r.response.labelAnnotations = (s2, true) := by
        rw [hla]
        exact foldE_replay _ (insertLabelAnn_ext imageId)
          (insertLabelAnn_replay imageId) hfl cb
      have hfull2 : optFold (insertMatchRef imageId "full") s2
          wd.fullMatchingImages = (s2, true) :=
        optFold_true_replay _ (insertMatchRef_ext imageId "full")
          (insertMatchRef_replay imageId "full") hfull cc
      have hpart2 : optFold (insertMatchRef imageId "partial") s2
          wd.partialMatchingImages = (s2, true) :=
        optFold_true_replay _ (insertMatchRef_ext imageId "partial")
          (insertMatchRef_replay imageId "partial") hpart cd
      have hpage2 : optFold (insertPageRef imageId) s2
          wd.pagesWithMatchingImages = (s2, true) :=
        optFold_true_replay _ (insertPageRef_ext imageId)
          (insertPageRef_replay imageId) hpage ce
      have hwe2 : reqFold (insertWebEnt imageId) s2 wd.webEntities = (s2, true) :=
        reqFold_true_replay _ (insertWebEnt_ext imageId)
          (insertWebEnt_replay imageId) hwe cf
      have hlands3 : optFold (insertLandmarkAnn imageId) s2
          r.response.landmarkAnnotations = (s2, true) :=
        optFold_true_replay _ (insertLandmarkAnn_ext imageId)
          (insertLandmarkAnn_replay imageId) hlands2 he
      split
      · rename_i sx hgx
        rw [gocr_replay hg1 ca] at hgx
        simp at hgx
      · rename_i sx ix hgx
        rw [gocr_replay hg1 ca] at hgx
        simp only [Prod.mk.injEq, Option.some.injEq] at hgx
        obtain ⟨rfl, rfl⟩ := hgx
        simp only [hreq2, seqB, hwd, hfull2, hpart2, hpage2, hwe2, hlands3]

theorem populateSqlite_replay {rs : List Rec} {s s1 s2 : SqlState} {n : Nat}
    (h : populateSqlite s rs = (s1, some n)) (he : DbExt s1 s2) :
    populateSqlite s2 rs = (s2, some n) := by
  induction rs generalizing s n with
  | nil =>
    unfold populateSqlite at h
    simp only [Prod.mk.injEq, Option.some.injEq] at h
    obtain ⟨rfl, rfl⟩ := h
    rfl
  | cons r rs ih =>
    unfold populateSqlite at h ⊢
    split at h
    · rename_i sa hi
      split at h
      · rename_i sb m hp
        simp only [Prod.mk.injEq, Option.some.injEq] at h
        obtain ⟨rfl, rfl⟩ := h
        have hext1 : DbExt sa sb := by
          have := populateSqlite_ext rs sa
          rw [hp] at this
          exact this
        have hi2 : insertImage s2 r = (s2, true) :=
          insertImage_replay hi (ext_trans hext1 he)
        have hp2 : populateSqlite s2 rs = (s2, some m) := ih hp
        simp only [hi2, hp2]
      · rename_i sb hp
        simp at h
    · rename_i sa hi
      simp at h

/-! ## Totality: every dictionary the program builds is valid, so no call
ever reaches the final `raise` of `getOrCreateRow` -/

theorem gocr_total2 (s : SqlState) {t : String} {d : Dict} (hv : validDict t d) :
    ∃ s2 i, getOrCreateRow s t d = (s2, some i) := by
  obtain ⟨i, hi⟩ := gocr_total s hv
  exact ⟨(getOrCreateRow s t d).1, i, hi⟩

theorem pairStep_total {t1 : String} {d1 : Dict} {t2 : String} {d2 : Nat → Dict}
    (s : SqlState) (h1 : validDict t1 d1) (h2 : ∀ i, validDict t2 (d2 i)) :
    (pairStep t1 d1 t2 d2 s).2 = true := by
  unfold pairStep
  split
  · rename_i sa hg
    obtain ⟨sx, i, hi⟩ := gocr_total2 s h1
    rw [hg] at hi
    simp at hi
  · rename_i sa i hg
    split
    · rename_i sb hg2
      obtain ⟨sy, j, hj⟩ := gocr_total2 sa (h2 i)
      rw [hg2] at hj
      simp at hj
    · rfl

/-- Validity only depends on the key list, never on the values. -/
theorem validDict_keys {t : String} {d : Dict} (ks : List String)
    (h : d.map Prod.fst = ks)
    (h2 : ks.Nodup ∧ ∀ k ∈ ks, k ∈ (schemaOf t).map Prod.fst) : validDict t d := by
  unfold validDict
  rw [h]
  exact h2

theorem insertLabelAnn_total (i : Nat) (s : SqlState) (a : LabelAnn) :
    (insertLabelAnn i s a).2 = true :=
  pairStep_total s (validDict_keys ["mid", "description"] rfl (by decide))
    (fun j => validDict_keys ["image_id", "label_id", "score"] rfl (by decide))

theorem insertMatchRef_total (i : Nat) (ty : String) (s : SqlState) (a : MatchRef) :
    (insertMatchRef i ty s a).2 = true :=
  pairStep_total s (validDict_keys ["url"] rfl (by decide))
    (fun j => validDict_keys ["image_id1", "image_id2", "type"] rfl (by decide))

theorem insertPageRef_total (i : Nat) (s : SqlState) (a : MatchRef) :
    (insertPageRef i s a).2 = true :=
  pairStep_total s (validDict_keys ["url"] rfl (by decide))
    (fun j => validDict_keys ["image_id", "page_id"] rfl (by decide))

theorem insertWebEnt_total (i : Nat) (s : SqlState) (a : WebEnt) :
    (insertWebEnt i s a).2 = true :=
  pairStep_total s (validDict_keys ["entity_id", "description"] rfl (by decide))
    (fun j => validDict_keys ["image_id", "web_entity_id", "score"] rfl (by decide))

theorem insertLocation_total (i : Nat) (s : SqlState) (a : LatLng) :
    (insertLocation i s a).2 = true :=
  pairStep_total s (validDict_keys ["latitude", "longitude"] rfl (by decide))
    (fun j => validDict_keys ["landmark_id", "location_id"] rfl (by decide))

theorem foldE_total {α : Type} (f : SqlState → α → SqlState × Bool)
    (hf : ∀ s a, (f s a).2 = true) :
    ∀ (l : List α) (s : SqlState), (foldE f s l).2 = true := by
  intro l
  induction l with
  | nil => intro s; rfl
  | cons a as ih =>
    intro s
    unfold foldE
    split
    · rename_i s2 hfa
      exact ih s2
    · rename_i s2 hfa
      have := hf s a
      rw [hfa] at this
      simp at this

theorem optFold_total {α : Type} (f : SqlState → α → SqlState × Bool)
    (hf : ∀ s a, (f s a).2 = true) (s : SqlState) (o : Option (List α)) :
    (optFold f s o).2 = true := by
  cases o with
  | none => rfl
  | some l => exact foldE_total f hf l s

theorem seqB_total {p : SqlState × Bool} {f : SqlState → SqlState × Bool}
    (hp : p.2 = true) (hf : ∀ s0, (f s0).2 = true) : (seqB p f).2 = true := by
  rcases p with ⟨sp, b⟩
  cases b
  · simp at hp
  · exact hf sp

theorem insertLandmarkAnn_total (i : Nat) (s : SqlState) (a : LandmarkAnn) :
    (insertLandmarkAnn i s a).2 = true := by
  unfold insertLandmarkAnn
  split
  · rename_i sa hg
    obtain ⟨sx, j, hj⟩ := gocr_total2 s
      (validDict_keys (t := "landmark")
        (d := [("mid", Val.str a.mid),
               ("description", Val.str (a.description.getD ""))])
        ["mid", "description"] rfl (by decide))
    rw [hg] at hj
    simp at hj
  · rename_i sa lid hg
    split
    · rename_i sb hg2
      obtain ⟨sy, j, hj⟩ := gocr_total2 sa
        (validDict_keys (t := "image_contains_landmark")
          (d := [("image_id", Val.int i), ("landmark_id", Val.int lid),
                 ("score", Val.int a.score)])
          ["image_id", "landmark_id", "score"] rfl (by decide))
      rw [hg2] at hj
      simp at hj
    · rename_i sb v hg2
      exact foldE_total _ (insertLocation_total lid) a.locations sb

/-- A record whose `labelAnnotations`, `webDetection` and
`webDetection.webEntities` are all present always ingests successfully:
these are exactly the unguarded accesses. -/
theorem insertImage_total {r : Rec} (s : SqlState) {la : List LabelAnn}
    {wd : WebDetection} {we : List WebEnt}
    (h1 : r.response.labelAnnotations = some la)
    (h2 : r.response.webDetection = some wd)
    (h3 : wd.webEntities = some we) :
    (insertImage s r).2 = true := by
  unfold insertImage
  split
  · rename_i sa hg
    obtain ⟨sx, i, hi⟩ := gocr_total2 s
      (validDict_keys (t := "image")
        (d := [("url", Val.str r.url), ("is_document", Val.int 1)])
        ["url", "is_document"] rfl (by decide))
    rw [hg] at hi
    simp at hi
  · rename_i sa imageId hg
    apply seqB_total
    · rw [h1]
      exact foldE_total _ (insertLabelAnn_total imageId) la sa
    · intro s2
      simp only [h2]
      apply seqB_total
      · exact optFold_total _ (insertMatchRef_total imageId "full") s2
          wd.fullMatchingImages
      · intro s3
        apply seqB_total
        · exact optFold_total _ (insertMatchRef_total imageId "partial") s3
            wd.partialMatchingImages
        · intro s4
          apply seqB_total
          · exact optFold_total _ (insertPageRef_total imageId) s4
              wd.pagesWithMatchingImages
          · intro s5
            apply seqB_total
            · rw [h3]
              exact foldE_total _ (insertWebEnt_total imageId) we s5
            · intro s6
              exact optFold_total _ (insertLandmarkAnn_total imageId) s6
                r.response.landmarkAnnotations

/-! ## The calls `insertImage` makes, and a generic preservation engine -/

/-- The `labelAnnotations` read by ingestion (empty if absent). -/
def laOf (r : Rec) : List LabelAnn := r.response.labelAnnotations.getD []

/-- The `webDetection.fullMatchingImages` read by ingestion. -/
def wdFull (r : Rec) : List MatchRef :=
  match r.response.webDetection with
  | none => []
  | some wd => wd.fullMatchingImages.getD []

/-- The `webDetection.partialMatchingImages` read by ingestion. -/
def wdPartial (r : Rec) : List MatchRef :=
  match r.response.webDetection with
  | none => []
  | some wd => wd.partialMatchingImages.getD []

/-- The `webDetection.pagesWithMatchingImages` read by ingestion. -/
def wdPages (r : Rec) : List MatchRef :=
  match r.response.webDetection with
  | none => []
  | some wd => wd.pagesWithMatchingImages.getD []

/-- The `webDetection.webEntities` read by ingestion. -/
def wdEnts (r : Rec) : List WebEnt :=
  match r.response.webDetection with
  | none => []
  | some wd => wd.webEntities.getD []

/-- The `landmarkAnnotations` read by ingestion. -/
def lmOf (r : Rec) : List LandmarkAnn := r.response.landmarkAnnotations.getD []

/-- The `(table, dataDict)` pairs `insertImage` can pass to `getOrCreateRow`
while ingesting record `r`. -/
inductive UsedCall (r : Rec) : String → Dict → Prop where
  | image :
      UsedCall r "image" [("url", Val.str r.url), ("is_document", Val.int 1)]
  | label (a : LabelAnn) (ha : a ∈ laOf r) :
      UsedCall r "label"
        [("mid", Val.str a.mid), ("description", Val.str a.description)]
  | taggedLabel (i j : Nat) (a : LabelAnn) (ha : a ∈ laOf r) :
      UsedCall r "image_tagged_label"
        [("image_id", Val.int i), ("label_id", Val.int j),
         ("score", Val.int a.score)]
  | matchImage (m : MatchRef) (hm : m ∈ wdFull r ∨ m ∈ wdPartial r) :
      UsedCall r "image" [("url", Val.str m.url)]
  | matchEdge (i j : Nat) (ty : String) (m : MatchRef)
      (hm : (m ∈ wdFull r ∧ ty = "full") ∨ (m ∈ wdPartial r ∧ ty = "partial")) :
      UsedCall r "image_matches_image"
        [("image_id1", Val.int i), ("image_id2", Val.int j),
         ("type", Val.str ty)]
  | page (m : MatchRef) (hm : m ∈ wdPages r) :
      UsedCall r "page" [("url", Val.str m.url)]
  | inPage (i j : Nat) (m : MatchRef) (hm : m ∈ wdPages r) :
      UsedCall r "image_in_page"
        [("image_id", Val.int i), ("page_id", Val.int j)]
  | webent (w : WebEnt) (hw : w ∈ wdEnts r) :
      UsedCall r "web_entity"
        [("entity_id", Val.str w.entityId),
         ("description", Val.str (w.description.getD ""))]
  | taggedWeb (i j : Nat) (w : WebEnt) (hw : w ∈ wdEnts r) :
      UsedCall r "image_tagged_web_entity"
        [("image_id", Val.int i), ("web_entity_id", Val.int j),
         ("score", Val.int w.score)]
  | landmark (l : LandmarkAnn) (hl : l ∈ lmOf r) :
      UsedCall r "landmark"
        [("mid", Val.str l.mid), ("description", Val.str (l.description.getD ""))]
  | containsL (i j : Nat) (l : LandmarkAnn) (hl : l ∈ lmOf r) :
      UsedCall r "image_contains_landmark"
        [("image_id", Val.int i), ("landmark_id", Val.int j),
         ("score", Val.int l.score)]
  | location (l : LandmarkAnn) (hl : l ∈ lmOf r) (loc : LatLng)
      (hloc : loc ∈ l.locations) :
      UsedCall r "location"
        [("latitude", Val.int loc.latitude), ("longitude", Val.int loc.longitude)]
  | locatedAt (i j : Nat) (l : LandmarkAnn) (hl : l ∈ lmOf r) (loc : LatLng)
      (hloc : loc ∈ l.locations) :
      UsedCall r "landmark_located_at_location"
        [("landmark_id", Val.int i), ("location_id", Val.int j)]

/-- Every dictionary the program supplies is valid for its table. -/
theorem usedCall_valid {r : Rec} {t : String} {d : Dict} (h : UsedCall r t d) :
    validDict t d := by
  cases h with
  | image => exact validDict_keys ["url", "is_document"] rfl (by decide)
  | label a ha => exact validDict_keys ["mid", "description"] rfl (by decide)
  | taggedLabel i j a ha =>
      exact validDict_keys ["image_id", "label_id", "score"] rfl (by decide)
  | matchImage m hm => exact validDict_keys ["url"] rfl (by decide)
  | matchEdge i j ty m hm =>
      exact validDict_keys ["image_id1", "image_id2", "type"] rfl (by decide)
  | page m hm => exact validDict_keys ["url"] rfl (by decide)
  | inPage i j m hm =>
      exact validDict_keys ["image_id", "page_id"] rfl (by decide)
  | webent w hw => exact validDict_keys ["entity_id", "description"] rfl (by decide)
  | taggedWeb i j w hw =>
      exact validDict_keys ["image_id", "web_entity_id", "score"] rfl (by decide)
  | landmark l hl => exact validDict_keys ["mid", "description"] rfl (by decide)
  | containsL i j l hl =>
      exact validDict_keys ["image_id", "landmark_id", "score"] rfl (by decide)
  | location l hl loc hloc =>
      exact validDict_keys ["latitude", "longitude"] rfl (by decide)
  | locatedAt i j l hl loc hloc =>
      exact validDict_keys ["landmark_id", "location_id"] rfl (by decide)

theorem pairStep_pres {P : SqlState → Prop} {t1 : String} {d1 : Dict}
    {t2 : String} {d2 : Nat → Dict}
    (hc1 : ∀ s, P s → P (getOrCreateRow s t1 d1).1)
    (hc2 : ∀ s i, P s → P (getOrCreateRow s t2 (d2 i)).1) :
    ∀ s, P s → P (pairStep t1 d1 t2 d2 s).1 := by
  intro s hs
  unfold pairStep
  split
  · rename_i sa hg
    have := hc1 s hs
    rw [hg] at this
    exact this
  · rename_i sa i hg
    have hsa : P sa := by have := hc1 s hs; rw [hg] at this; exact this
    split
    · rename_i sb hg2
      have := hc2 sa i hsa
      rw [hg2] at this
      exact this
    · rename_i sb v hg2
      have := hc2 sa i hsa
      rw [hg2] at this
      exact this

theorem foldE_pres {α : Type} {P : SqlState → Prop}
    (f : SqlState → α → SqlState × Bool) :
    ∀ (l : List α), (∀ s a, a ∈ l → P s → P (f s a).1) →
      ∀ s, P s → P (foldE f s l).1 := by
  intro l
  induction l with
  | nil => intro _ s hs; exact hs
  | cons a as ih =>
    intro hf s hs
    unfold foldE
    split
    · rename_i sa hfa
      have hsa : P sa := by
        have := hf s a (List.mem_cons_self a as) hs
        rw [hfa] at this
        exact this
      exact ih (fun s b hb => hf s b (List.mem_cons_of_mem a hb)) sa hsa
    · rename_i sa hfa
      have := hf s a (List.mem_cons_self a as) hs
      rw [hfa] at this
      exact this

theorem reqFold_pres {α : Type} {P : SqlState → Prop}
    (f : SqlState → α → SqlState × Bool) (o : Option (List α))
    (hf : ∀ s a l, o = some l → a ∈ l → P s → P (f s a).1) :
    ∀ s, P s → P (reqFold f s o).1 := by
  cases o with
  | none => intro s hs; exact hs
  | some l => exact foldE_pres f l (fun s a ha => hf s a l rfl ha)

theorem optFold_pres {α : Type} {P : SqlState → Prop}
    (f : SqlState → α → SqlState × Bool) (o : Option (List α))
    (hf : ∀ s a l, o = some l → a ∈ l → P s → P (f s a).1) :
    ∀ s, P s → P (optFold f s o).1 := by
  cases o with
  | none => intro s hs; exact hs
  | some l => exact foldE_pres f l (fun s a ha => hf s a l rfl ha)

theorem seqB_pres {P : SqlState → Prop} {p : SqlState × Bool}
    {f : SqlState → SqlState × Bool}
    (hp : P p.1) (hf : ∀ s0, P s0 → P (f s0).1) : P (seqB p f).1 := by
  rcases p with ⟨sp, b⟩
  cases b
  · exact hp
  · exact hf sp hp

/-- Preservation engine: any state predicate preserved by every call the
record can make is preserved by the whole of `insertImage`. -/
theorem insertImage_pres (P : SqlState → Prop) (r : Rec)
    (hP : ∀ s t d, UsedCall r t d → P s → P (getOrCreateRow s t d).1) :
    ∀ s, P s → P (insertImage s r).1 := by
  intro s hs
  unfold insertImage
  split
  · rename_i sa hg
    have := hP s _ _ UsedCall.image hs
    rw [hg] at this
    exact this
  · rename_i sa imageId hg
    have hsa : P sa := by
      have := hP s _ _ UsedCall.image hs
      rw [hg] at this
      exact this
    apply seqB_pres
    · apply reqFold_pres _ _ _ sa hsa
      intro s0 a l hl ha hs0
      have hmem : a ∈ laOf r := by simp [laOf, hl, ha]
      apply pairStep_pres (fun s1 hs1 => hP s1 _ _ (UsedCall.label a hmem) hs1)
        (fun s1 j hs1 =>
          hP s1 _ _ (UsedCall.taggedLabel imageId j a hmem) hs1) s0 hs0
    · intro s2 hs2
      cases hwd : r.response.webDetection with
      | none => exact hs2
      | some wd =>
        apply seqB_pres
        · apply optFold_pres _ _ _ s2 hs2
          intro s0 m l hl hm hs0
          have hmem : m ∈ wdFull r := by simp [wdFull, hwd, hl, hm]
          apply pairStep_pres
            (fun s1 hs1 => hP s1 _ _ (UsedCall.matchImage m (Or.inl hmem)) hs1)
            (fun s1 j hs1 =>
              hP s1 _ _ (UsedCall.matchEdge imageId j "full" m
                (Or.inl ⟨hmem, rfl⟩)) hs1) s0 hs0
        · intro s3 hs3
          apply seqB_pres
          · apply optFold_pres _ _ _ s3 hs3
            intro s0 m l hl hm hs0
            have hmem : m ∈ wdPartial r := by simp [wdPartial, hwd, hl, hm]
            apply pairStep_pres
              (fun s1 hs1 => hP s1 _ _ (UsedCall.matchImage m (Or.inr hmem)) hs1)
              (fun s1 j hs1 =>
                hP s1 _ _ (UsedCall.matchEdge imageId j "partial" m
                  (Or.inr ⟨hmem, rfl⟩)) hs1) s0 hs0
          · intro s4 hs4
            apply seqB_pres
            · apply optFold_pres _ _ _ s4 hs4
              intro s0 m l hl hm hs0
              have hmem : m ∈ wdPages r := by simp [wdPages, hwd, hl, hm]
              apply pairStep_pres
                (fun s1 hs1 => hP s1 _ _ (UsedCall.page m hmem) hs1)
                (fun s1 j hs1 =>
                  hP s1 _ _ (UsedCall.inPage imageId j m hmem) hs1) s0 hs0
            · intro s5 hs5
              apply seqB_pres
              · apply reqFold_pres _ _ _ s5 hs5
                intro s0 w l hl hw hs0
                have hmem : w ∈ wdEnts r := by simp [wdEnts, hwd, hl, hw]
                apply pairStep_pres
                  (fun s1 hs1 => hP s1 _ _ (UsedCall.webent w hmem) hs1)
                  (fun s1 j hs1 =>
                    hP s1 _ _ (UsedCall.taggedWeb imageId j w hmem) hs1) s0 hs0
              · intro s6 hs6
                apply optFold_pres _ _ _ s6 hs6
                intro s0 lm l hl hlm hs0
                have hmem : lm ∈ lmOf r := by simp [lmOf, hl, hlm]
                unfold insertLandmarkAnn
                split
                · rename_i sb hg2
                  have := hP s0 _ _ (UsedCall.landmark lm hmem) hs0
                  rw [hg2] at this
                  exact this
                · rename_i sb lid hg2
                  have hsb : P sb := by
                    have := hP s0 _ _ (UsedCall.landmark lm hmem) hs0
                    rw [hg2] at this
                    exact this
                  split
                  · rename_i sc hg3
                    have := hP sb _ _ (UsedCall.containsL imageId lid lm hmem) hsb
                    rw [hg3] at this
                    exact this
                  · rename_i sc v hg3
                    have hsc : P sc := by
                      have := hP sb _ _
                        (UsedCall.containsL imageId lid lm hmem) hsb
                      rw [hg3] at this
                      exact this
                    apply foldE_pres _ _ _ sc hsc
                    intro s1 loc hloc hs1
                    apply pairStep_pres
                      (fun sx hsx =>
                        hP sx _ _ (UsedCall.location lm hmem loc hloc) hsx)
                      (fun sx j hsx =>
                        hP sx _ _
                          (UsedCall.locatedAt lid j lm hmem loc hloc) hsx) s1 hs1

/-- Engine lifted to a whole run. -/
theorem populateSqlite_pres (P : SqlState → Prop) (rs : List Rec)
    (hP : ∀ s t d r, r ∈ rs → UsedCall r t d → P s → P (getOrCreateRow s t d).1) :
    ∀ s, P s → P (populateSqlite s rs).1 := by
  induction rs with
  | nil => intro s hs; exact hs
  | cons r rs ih =>
    intro s hs
    unfold populateSqlite
    split
    · rename_i sa hi
      have hsa : P sa := by
        have := insertImage_pres P r
          (fun s0 t d hu hs0 =>
            hP s0 t d r (List.mem_cons_self r rs) hu hs0) s hs
        rw [hi] at this
        exact this
      split
      · rename_i sb n hp
        have : P (populateSqlite sa rs).1 :=
          ih (fun s0 t d r2 hr2 hu hs0 =>
            hP s0 t d r2 (List.mem_cons_of_mem r hr2) hu hs0) sa hsa
        rw [hp] at this
        exact this
      · rename_i sb hp
        have : P (populateSqlite sa rs).1 :=
          ih (fun s0 t d r2 hr2 hu hs0 =>
            hP s0 t d r2 (List.mem_cons_of_mem r hr2) hu hs0) sa hsa
        rw [hp] at this
        exact this
    · rename_i sa hi
      have := insertImage_pres P r
        (fun s0 t d hu hs0 => hP s0 t d r (List.mem_cons_self r rs) hu hs0) s hs
      rw [hi] at this
      exact this

/-! ## Row distinctness: the get-or-create discipline never stores two
identical rows in one table (the uniqueness the code actually guarantees) -/

/-- No two stored rows of the same table carry identical column values. -/
def RowsDistinct (s : SqlState) : Prop :=
  List.Pairwise (fun a b => a.table = b.table → a.row ≠ b.row) s

theorem gocr_rowsDistinct {s : SqlState} {t : String} {d : Dict}
    (hv : validDict t d) (hd : RowsDistinct s) :
    RowsDistinct (getOrCreateRow s t d).1 := by
  unfold getOrCreateRow
  split
  · exact hd
  · rename_i hn
    have hnew : RowsDistinct (s ++ [⟨t, nextId s t, mkRow t d⟩]) := by
      rw [RowsDistinct, List.pairwise_append]
      refine ⟨hd, by simp, ?_⟩
      intro a ha b hb
      simp only [List.mem_singleton] at hb
      subst hb
      intro hta hrow
      have hfr : findRow s t d = none := hn
      unfold findRow at hfr
      rw [Option.map_eq_none'] at hfr
      rw [List.find?_eq_none] at hfr
      have := hfr a ha
      simp only [Bool.and_eq_true, beq_iff_eq] at this
      apply this
      constructor
      · exact hta
      · rw [hrow]
        exact rowMatches_mkRow hv
    split
    · exact hnew
    · exact hnew

/-- Distinct full rows is an invariant of whole runs. -/
theorem populateSqlite_rowsDistinct (rs : List Rec) (s : SqlState)
    (hd : RowsDistinct s) : RowsDistinct (populateSqlite s rs).1 :=
  populateSqlite_pres RowsDistinct rs
    (fun _ _ _ _ _ hu hs => gocr_rowsDistinct (usedCall_valid hu) hs) s hd

/-! ## Per-table row listings -/

/-- The `(id, row)` pairs of table `t`, in insertion order. -/
def tableRows (s : SqlState) (t : String) : List (Nat × Dict) :=
  (s.filter (fun e => e.table == t)).map (fun e => (e.id, e.row))

theorem tableRows_append_ne {s : SqlState} {e : Entry} {t : String}
    (hne : e.table ≠ t) : tableRows (s ++ [e]) t = tableRows s t := by
  unfold tableRows
  rw [List.filter_append]
  have : (fun e2 => e2.table == t) e = false := by simpa using hne
  simp [List.filter, this]

theorem gocr_tableRows_ne {s : SqlState} {t1 t : String} {d : Dict}
    (hne : t1 ≠ t) : tableRows (getOrCreateRow s t1 d).1 t = tableRows s t := by
  unfold getOrCreateRow
  split
  · rfl
  · split
    · exact tableRows_append_ne hne
    · exact tableRows_append_ne hne

/-! ## The document flag seen through urls -/

/-- Row is an image row recording url `u` as a document. -/
def isDocRow (e : Entry) (u : String) : Bool :=
  e.table == "image" && decide (lookupD e.row "url" = some (Val.str u))
    && decide (lookupD e.row "is_document" = some (Val.int 1))

/-- Some stored image row has url `u` with `is_document = 1`. -/
def sqlIsDoc (s : SqlState) (u : String) : Bool :=
  s.any (fun e => isDocRow e u)

theorem sqlIsDoc_mono {s s2 : SqlState} {u : String} (he : DbExt s s2)
    (h : sqlIsDoc s u = true) : sqlIsDoc s2 u = true := by
  obtain ⟨t, rfl⟩ := he
  unfold sqlIsDoc at h ⊢
  rw [List.any_append, h]
  rfl

/-- The very first `getOrCreateRow` of `insertImage` establishes the document
flag for the record url, found or created. -/
theorem gocr_image_isdoc (s : SqlState) (u : String) :
    sqlIsDoc (getOrCreateRow s "image"
      [("url", Val.str u), ("is_document", Val.int 1)]).1 u = true := by
  unfold getOrCreateRow
  split
  · rename_i i hf
    unfold findRow at hf
    obtain ⟨e, he1, he2⟩ := Option.map_eq_some'.mp hf
    have hmem := List.mem_of_find?_eq_some he1
    have hp := List.find?_some he1
    simp only [Bool.and_eq_true, beq_iff_eq] at hp
    have hmatch := hp.2
    unfold rowMatches at hmatch
    rw [List.all_eq_true] at hmatch
    have hu := hmatch ("url", Val.str u) (by simp)
    have hdoc := hmatch ("is_document", Val.int 1) (by simp)
    simp only [decide_eq_true_eq] at hu hdoc
    unfold sqlIsDoc
    rw [List.any_eq_true]
    refine ⟨e, hmem, ?_⟩
    unfold isDocRow
    simp [hp.1, hu, hdoc]
  · rename_i hn
    have hrow : isDocRow ⟨"image", nextId s "image",
        mkRow "image" [("url", Val.str u), ("is_document", Val.int 1)]⟩ u
        = true := by
      unfold isDocRow mkRow lookupD schemaOf
      simp [List.find?, List.all]
    split <;>
    · unfold sqlIsDoc
      rw [List.any_append]
      simp [List.any, hrow]

/-- The state reached after the initial image resolution is only extended by
the rest of `insertImage`. -/
theorem insertImage_ext_inner (s : SqlState) (r : Rec) :
    DbExt (getOrCreateRow s "image"
      [("url", Val.str r.url), ("is_document", Val.int 1)]).1
      (insertImage s r).1 := by
  unfold insertImage
  split
  · rename_i sa hg
    rw [hg]
    exact ext_refl sa
  · rename_i sa imageId hg
    rw [hg]
    apply seqB_ext _ _
      (reqFold_ext _ (insertLabelAnn_ext imageId) sa r.response.labelAnnotations)
    intro s2
    cases r.response.webDetection with
    | none => exact ext_refl s2
    | some wd =>
      apply seqB_ext _ _ (optFold_ext _ (insertMatchRef_ext imageId "full") s2
        wd.fullMatchingImages)
      intro s3
      apply seqB_ext _ _ (optFold_ext _ (insertMatchRef_ext imageId "partial") s3
        wd.partialMatchingImages)
      intro s4
      apply seqB_ext _ _ (optFold_ext _ (insertPageRef_ext imageId) s4
        wd.pagesWithMatchingImages)
      intro s5
      apply seqB_ext _ _ (reqFold_ext _ (insertWebEnt_ext imageId) s5 wd.webEntities)
      intro s6
      exact optFold_ext _ (insertLandmarkAnn_ext imageId) s6
        r.response.landmarkAnnotations

/-- Ingesting a record always leaves its url flagged as a document, whether
or not the record ingests successfully. -/
theorem insertImage_isdoc (s : SqlState) (r : Rec) :
    sqlIsDoc (insertImage s r).1 r.url = true :=
  sqlIsDoc_mono (insertImage_ext_inner s r) (gocr_image_isdoc s r.url)

theorem isDocRow_mk_false (idv : Nat) {t : String} {row : Dict} {u : String}
    (hcase : t ≠ "image" ∨ lookupD row "url" ≠ some (Val.str u)
      ∨ lookupD row "is_document" ≠ some (Val.int 1)) :
    isDocRow ⟨t, idv, row⟩ u = false := by
  unfold isDocRow
  rcases hcase with h | h | h <;> simp [h]

theorem gocr_sqlIsDoc_false {s : SqlState} {t : String} {d : Dict} {u : String}
    (hcase : t ≠ "image" ∨ lookupD (mkRow t d) "url" ≠ some (Val.str u)
      ∨ lookupD (mkRow t d) "is_document" ≠ some (Val.int 1))
    (h : sqlIsDoc s u = false) :
    sqlIsDoc (getOrCreateRow s t d).1 u = false := by
  unfold getOrCreateRow
  split
  · exact h
  · have hrow := isDocRow_mk_false (nextId s t) hcase
    split <;>
    · unfold sqlIsDoc at h ⊢
      rw [List.any_append, h]
      simp [List.any, hrow]

/-- A url different from the ingested record url that is not yet flagged as a
document stays unflagged: match targets are created with the default
`is_document = 0` and nothing updates rows in place. -/
theorem insertImage_isdoc_false {r : Rec} {u : String} (hne : u ≠ r.url) :
    ∀ s, sqlIsDoc s u = false → sqlIsDoc (insertImage s r).1 u = false := by
  apply insertImage_pres (fun s => sqlIsDoc s u = false) r
  intro s t d hu hs
  cases hu with
  | image =>
    refine gocr_sqlIsDoc_false (Or.inr (Or.inl ?_)) hs
    intro hcon
    rw [show lookupD (mkRow "image"
        [("url", Val.str r.url), ("is_document", Val.int 1)]) "url"
        = some (Val.str r.url) from rfl] at hcon
    simp at hcon
    exact hne hcon.symm
  | matchImage m hm =>
    refine gocr_sqlIsDoc_false (Or.inr (Or.inr ?_)) hs
    intro hcon
    rw [show lookupD (mkRow "image" [("url", Val.str m.url)]) "is_document"
        = some (Val.int 0) from rfl] at hcon
    simp at hcon
  | label a ha => exact gocr_sqlIsDoc_false (Or.inl (by decide)) hs
  | taggedLabel i j a ha => exact gocr_sqlIsDoc_false (Or.inl (by decide)) hs
  | matchEdge i j ty m hm => exact gocr_sqlIsDoc_false (Or.inl (by decide)) hs
  | page m hm => exact gocr_sqlIsDoc_false (Or.inl (by decide)) hs
  | inPage i j m hm => exact gocr_sqlIsDoc_false (Or.inl (by decide)) hs
  | webent w hw => exact gocr_sqlIsDoc_false (Or.inl (by decide)) hs
  | taggedWeb i j w hw => exact gocr_sqlIsDoc_false (Or.inl (by decide)) hs
  | landmark l hl => exact gocr_sqlIsDoc_false (Or.inl (by decide)) hs
  | containsL i j l hl => exact gocr_sqlIsDoc_false (Or.inl (by decide)) hs
  | location l hl loc hloc => exact gocr_sqlIsDoc_false (Or.inl (by decide)) hs
  | locatedAt i j l hl loc hloc =>
      exact gocr_sqlIsDoc_false (Or.inl (by decide)) hs

/-! ## Neo4j embedding (`populateNeo4j.insertQuery`)

Nodes are identified by their MERGE pattern: `Image {url}`,
`Label {mid}`, `WebEntity {entityId}`, `Page {url}`,
`Landmark {mid, description}`, `Location {latitude, longitude}`.
Edges MERGE on endpoints plus all edge properties.  The string property
`isDocument` (set to the strings true/false by the source) is embedded as a
`Bool`.  `FOREACH` over a missing array iterates zero times, which the
`laOf`/`wdFull`/... accessors reflect by returning `[]`. -/

/-- An `Image` node. -/
structure ImgNode where
  url : String
  isDocument : Bool
deriving DecidableEq

/-- The property graph: one list per node label and relationship type. -/
structure GraphState where
  images : List ImgNode
  labels : List (String × String)
  webents : List (String × String)
  pages : List String
  landmarks : List (String × String)
  locations : List (Int × Int)
  taggedLabel : List (String × String × Int)
  taggedWeb : List (String × String × Int)
  matchEdges : List (String × String × String)
  inPage : List (String × String)
  containsE : List (String × (String × String) × Int)
  locatedAt : List ((String × String) × Int × Int)
deriving DecidableEq

/-- `ON MATCH SET isDocument = true` applied to the matched url. -/
def setDocIfUrl (u : String) (n : ImgNode) : ImgNode :=
  if n.url == u then { n with isDocument := true } else n

/-- `MERGE (img:Image {url}) ON CREATE SET true ON MATCH SET true`. -/
def mergeSourceImage (imgs : List ImgNode) (u : String) : List ImgNode :=
  if imgs.any (fun n => n.url == u) then imgs.map (setDocIfUrl u)
  else imgs ++ [⟨u, true⟩]

/-- `MERGE (img2:Image {url}) ON CREATE SET false` (no ON MATCH clause). -/
def mergeTargetImage (imgs : List ImgNode) (u : String) : List ImgNode :=
  if imgs.any (fun n => n.url == u) then imgs else imgs ++ [⟨u, false⟩]

/-- `MERGE` on a single key with `ON CREATE SET description` (Label,
WebEntity): an existing key keeps its stored description. -/
def mergeKeyed (ks : List (String × String)) (key desc : String) :
    List (String × String) :=
  if ks.any (fun p => p.1 == key) then ks else ks ++ [(key, desc)]

/-- `MERGE` on a full pattern (Page, Landmark, Location and every edge). -/
def mergeNode {β : Type} [BEq β] (ns : List β) (x : β) : List β :=
  if ns.contains x then ns else ns ++ [x]

/-- The single-statement `insertQuery` of `populateNeo4j`, clause for clause. -/
def neo4jInsert (g : GraphState) (r : Rec) : GraphState :=
  let g := { g with images := mergeSourceImage g.images r.url }
  let g := (laOf r).foldl (fun g ann =>
    let g := { g with labels := mergeKeyed g.labels ann.mid ann.description }
    { g with taggedLabel := mergeNode g.taggedLabel (r.url, ann.mid, ann.score) }) g
  let g := (wdFull r).foldl (fun g m =>
    let g := { g with images := mergeTargetImage g.images m.url }
    { g with matchEdges := mergeNode g.matchEdges (r.url, m.url, "full") }) g
  let g := (wdPartial r).foldl (fun g m =>
    let g := { g with images := mergeTargetImage g.images m.url }
    { g with matchEdges := mergeNode g.matchEdges (r.url, m.url, "partial") }) g
  let g := (wdEnts r).foldl (fun g w =>
    let g := { g with webents := mergeKeyed g.webents w.entityId (w.description.getD "") }
    { g with taggedWeb := mergeNode g.taggedWeb (r.url, w.entityId, w.score) }) g
  let g := (wdPages r).foldl (fun g m =>
    let g := { g with pages := mergeNode g.pages m.url }
    { g with inPage := mergeNode g.inPage (r.url, m.url) }) g
  (lmOf r).foldl (fun g lm =>
    let g := { g with landmarks := mergeNode g.landmarks (lm.mid, lm.description.getD "") }
    let g := { g with containsE := mergeNode g.containsE (r.url, (lm.mid, lm.description.getD ""), lm.score) }
    lm.locations.foldl (fun g loc =>
      let g := { g with locations := mergeNode g.locations (loc.latitude, loc.longitude) }
      { g with locatedAt := mergeNode g.locatedAt ((lm.mid, lm.description.getD ""), loc.latitude, loc.longitude) }) g) g

/-- The record loop of `populateNeo4j`: each record is one statement; the
embedded statement never raises, so every record loads and is counted. -/
def populateNeo4j : GraphState → List Rec → GraphState × Nat
  | g, [] => (g, 0)
  | g, r :: rs =>
    let p := populateNeo4j (neo4jInsert g r) rs
    (p.1, p.2 + 1)

/-- The resulting graph of a run. -/
def neo4jRun (g : GraphState) (rs : List Rec) : GraphState :=
  rs.foldl neo4jInsert g

theorem populateNeo4j_run (g : GraphState) (rs : List Rec) :
    populateNeo4j g rs = (neo4jRun g rs, rs.length) := by
  induction rs generalizing g with
  | nil => rfl
  | cons r rs ih =>
    unfold populateNeo4j neo4jRun
    rw [List.foldl_cons]
    rw [ih (neo4jInsert g r)]
    rfl

/-! ### Generic fold helpers -/

theorem foldl_pres {γ β : Type} (f : γ → β → γ) (P : γ → Prop)
    (h : ∀ g a, P g → P (f g a)) :
    ∀ (l : List β) (g : γ), P g → P (l.foldl f g) := by
  intro l
  induction l with
  | nil => intro g hg; exact hg
  | cons a as ih =>
    intro g hg
    rw [List.foldl_cons]
    exact ih (f g a) (h g a hg)

theorem foldl_establish {γ β : Type} (f : γ → β → γ) (Q : β → γ → Prop)
    (hset : ∀ g a, Q a (f g a))
    (hmono : ∀ g a b, Q a g → Q a (f g b)) :
    ∀ (l : List β) (g : γ) (a : β), a ∈ l → Q a (l.foldl f g) := by
  intro l
  induction l with
  | nil => intro g a ha; simp at ha
  | cons b bs ih =>
    intro g a ha
    rw [List.foldl_cons]
    rcases List.mem_cons.mp ha with rfl | hmem
    · exact foldl_pres f (Q a) (fun g2 c hq => hmono g2 a c hq) bs (f g a)
        (hset g a)
    · exact ih (f g b) a hmem

theorem foldl_fixed {γ β : Type} (f : γ → β → γ) (g : γ) (l : List β)
    (h : ∀ a ∈ l, f g a = g) : l.foldl f g = g := by
  induction l with
  | nil => rfl
  | cons a as ih =>
    rw [List.foldl_cons, h a (List.mem_cons_self a as)]
    exact ih (fun b hb => h b (List.mem_cons_of_mem a hb))

/-! ### Merge operation facts -/

/-- Some node carries url `u`. -/
def hasImageAny (imgs : List ImgNode) (u : String) : Bool :=
  imgs.any (fun n => n.url == u)

/-- Url `u` exists and every node carrying it is flagged a document. -/
def imageDocOK (imgs : List ImgNode) (u : String) : Bool :=
  imgs.any (fun n => n.url == u) && imgs.all (fun n => !(n.url == u) || n.isDocument)

/-- Some node carries url `u` flagged as a document. -/
def hasDocImage (imgs : List ImgNode) (u : String) : Bool :=
  imgs.any (fun n => n.url == u && n.isDocument)

/-- No node carrying url `u` is flagged a document. -/
def noDocImage (imgs : List ImgNode) (u : String) : Bool :=
  imgs.all (fun n => !(n.url == u) || !n.isDocument)

/-- Key `k` is present. -/
def hasKey (ks : List (String × String)) (k : String) : Bool :=
  ks.any (fun p => p.1 == k)

theorem setDocIfUrl_url (u : String) (n : ImgNode) :
    (setDocIfUrl u n).url = n.url := by
  unfold setDocIfUrl
  split <;> rfl

theorem setDocIfUrl_id {u : String} {n : ImgNode}
    (h : (!(n.url == u) || n.isDocument) = true) : setDocIfUrl u n = n := by
  unfold setDocIfUrl
  split
  · rename_i hu
    rcases n with ⟨nu, nd⟩
    simp only [hu, Bool.not_true, Bool.false_or] at h
    simp [h]
  · rfl

theorem contains_mergeNode {β : Type} [BEq β] [LawfulBEq β] {ns : List β} {x y : β}
    (h : ns.contains x = true) : (mergeNode ns y).contains x = true := by
  unfold mergeNode
  split
  · exact h
  · have hx : x ∈ ns := by simpa using h
    simp [hx]

theorem contains_mergeNode_self {β : Type} [BEq β] [LawfulBEq β] (ns : List β) (x : β) :
    (mergeNode ns x).contains x = true := by
  unfold mergeNode
  split
  · assumption
  · simp

theorem hasKey_mergeKeyed {ks : List (String × String)} {k k2 d2 : String}
    (h : hasKey ks k = true) : hasKey (mergeKeyed ks k2 d2) k = true := by
  unfold mergeKeyed
  split
  · exact h
  · unfold hasKey at h ⊢
    rw [List.any_append, h]
    rfl

theorem hasKey_mergeKeyed_self (ks : List (String × String)) (k d : String) :
    hasKey (mergeKeyed ks k d) k = true := by
  unfold mergeKeyed
  split
  · assumption
  · unfold hasKey
    rw [List.any_append]
    simp

theorem hasImageAny_mergeSource {imgs : List ImgNode} {u u2 : String}
    (h : hasImageAny imgs u = true) :
    hasImageAny (mergeSourceImage imgs u2) u = true := by
  unfold mergeSourceImage
  split
  · unfold hasImageAny at h ⊢
    rw [List.any_map]
    rw [List.any_eq_true] at h ⊢
    obtain ⟨n, hn, hp⟩ := h
    exact ⟨n, hn, by simpa [setDocIfUrl_url] using hp⟩
  · unfold hasImageAny at h ⊢
    rw [List.any_append, h]
    rfl

theorem hasImageAny_mergeSource_self (imgs : List ImgNode) (u : String) :
    hasImageAny (mergeSourceImage imgs u) u = true := by
  unfold mergeSourceImage
  split
  · rename_i hany
    unfold hasImageAny
    rw [List.any_map]
    rw [List.any_eq_true] at hany ⊢
    obtain ⟨n, hn, hp⟩ := hany
    exact ⟨n, hn, by simpa [setDocIfUrl_url] using hp⟩
  · unfold hasImageAny
    rw [List.any_append]
    simp

theorem hasImageAny_mergeTarget {imgs : List ImgNode} {u u2 : String}
    (h : hasImageAny imgs u = true) :
    hasImageAny (mergeTargetImage imgs u2) u = true := by
  unfold mergeTargetImage
  split
  · exact h
  · unfold hasImageAny at h ⊢
    rw [List.any_append, h]
    rfl

theorem hasImageAny_mergeTarget_self (imgs : List ImgNode) (u : String) :
    hasImageAny (mergeTargetImage imgs u) u = true := by
  unfold mergeTargetImage
  split
  · assumption
  · unfold hasImageAny
    rw [List.any_append]
    simp

theorem imageDocOK_mergeSource {imgs : List ImgNode} {u u2 : String}
    (h : imageDocOK imgs u = true) :
    imageDocOK (mergeSourceImage imgs u2) u = true := by
  unfold imageDocOK at h
  rw [Bool.and_eq_true] at h
  obtain ⟨hany, hall⟩ := h
  unfold imageDocOK mergeSourceImage
  rw [Bool.and_eq_true]
  split
  · constructor
    · rw [List.any_map, List.any_eq_true] at *
      obtain ⟨n, hn, hp⟩ := hany
      exact ⟨n, hn, by simpa [setDocIfUrl_url] using hp⟩
    · rw [List.all_map, List.all_eq_true] at *
      intro n hn
      have := hall n hn
      simp only [Function.comp]
      rw [setDocIfUrl_url]
      unfold setDocIfUrl
      split <;> simp_all
  · constructor
    · rw [List.any_append, hany]
      rfl
    · rw [List.all_append]
      rw [hall]
      simp

theorem imageDocOK_mergeSource_self (imgs : List ImgNode) (u : String) :
    imageDocOK (mergeSourceImage imgs u) u = true := by
  unfold imageDocOK mergeSourceImage
  rw [Bool.and_eq_true]
  split
  · rename_i hany
    constructor
    · rw [List.any_map, List.any_eq_true] at *
      obtain ⟨n, hn, hp⟩ := hany
      exact ⟨n, hn, by simpa [setDocIfUrl_url] using hp⟩
    · rw [List.all_map, List.all_eq_true]
      intro n hn
      simp only [Function.comp]
      rw [setDocIfUrl_url]
      unfold setDocIfUrl
      split <;> simp_all
  · rename_i hany
    constructor
    · rw [List.any_append]
      simp
    · rw [List.all_append, Bool.and_eq_true]
      rw [List.any_eq_true] at hany
      push_neg at hany
      constructor
      · rw [List.all_eq_true]
        intro n hn
        have hx : (n.url == u) = false := by
          have := hany n hn
          simpa using this
        simp [hx]
      · simp

theorem imageDocOK_mergeTarget {imgs : List ImgNode} {u u2 : String}
    (h : imageDocOK imgs u = true) :
    imageDocOK (mergeTargetImage imgs u2) u = true := by
  unfold imageDocOK at h
  rw [Bool.and_eq_true] at h
  obtain ⟨hany, hall⟩ := h
  unfold imageDocOK mergeTargetImage
  rw [Bool.and_eq_true]
  split
  · exact ⟨hany, hall⟩
  · rename_i hnone
    constructor
    · rw [List.any_append, hany]
      rfl
    · rw [List.all_append, hall]
      have hne : (u2 == u) = false := by
        rw [beq_eq_false_iff_ne]
        intro he
        subst he
        rw [List.any_eq_true] at hany
        obtain ⟨n, hn, hp⟩ := hany
        exact hnone (List.any_eq_true.mpr ⟨n, hn, by simpa using hp⟩)
      simp [List.all, hne]

theorem noDocImage_mergeSource {imgs : List ImgNode} {u u2 : String}
    (hne : u ≠ u2) (h : noDocImage imgs u = true) :
    noDocImage (mergeSourceImage imgs u2) u = true := by
  unfold noDocImage at h ⊢
  unfold mergeSourceImage
  split
  · rw [List.all_map, List.all_eq_true] at *
    intro n hn
    have := h n hn
    simp only [Function.comp]
    rw [setDocIfUrl_url]
    unfold setDocIfUrl
    split
    · rename_i hu2
      have hnu : n.url = u2 := by simpa using hu2
      have hf : (n.url == u) = false := by
        rw [beq_eq_false_iff_ne, hnu]
        exact fun he => hne he.symm
      simp [hf]
    · assumption
  · rw [List.all_append, h]
    have : (u2 == u) = false := by
      rw [beq_eq_false_iff_ne]
      exact fun he => hne he.symm
    simp [List.all, this]

theorem noDocImage_mergeTarget {imgs : List ImgNode} {u u2 : String}
    (h : noDocImage imgs u = true) :
    noDocImage (mergeTargetImage imgs u2) u = true := by
  unfold noDocImage at h ⊢
  unfold mergeTargetImage
  split
  · exact h
  · rw [List.all_append, h]
    simp [List.all]

theorem hasDocImage_mergeSource {imgs : List ImgNode} {u u2 : String}
    (h : hasDocImage imgs u = true) :
    hasDocImage (mergeSourceImage imgs u2) u = true := by
  unfold hasDocImage at h ⊢
  unfold mergeSourceImage
  split
  · rw [List.any_map, List.any_eq_true] at *
    obtain ⟨n, hn, hp⟩ := h
    refine ⟨n, hn, ?_⟩
    simp only [Function.comp]
    rw [Bool.and_eq_true] at hp ⊢
    constructor
    · rw [setDocIfUrl_url]
      exact hp.1
    · unfold setDocIfUrl
      split <;> simp_all
  · rw [List.any_append, h]
    rfl

theorem hasDocImage_mergeTarget {imgs : List ImgNode} {u u2 : String}
    (h : hasDocImage imgs u = true) :
    hasDocImage (mergeTargetImage imgs u2) u = true := by
  unfold hasDocImage at h ⊢
  unfold mergeTargetImage
  split
  · exact h
  · rw [List.any_append, h]
    rfl

theorem hasDocImage_mergeSource_self (imgs : List ImgNode) (u : String) :
    hasDocImage (mergeSourceImage imgs u) u = true := by
  unfold hasDocImage mergeSourceImage
  split
  · rename_i hany
    rw [List.any_map, List.any_eq_true]
    rw [List.any_eq_true] at hany
    obtain ⟨n, hn, hp⟩ := hany
    refine ⟨n, hn, ?_⟩
    simp only [Function.comp]
    unfold setDocIfUrl
    rw [hp]
    simp
    exact (by simpa using hp)
  · rw [List.any_append]
    simp

theorem noDocImage_hasDocImage_false {imgs : List ImgNode} {u : String}
    (h : noDocImage imgs u = true) : hasDocImage imgs u = false := by
  unfold noDocImage at h
  unfold hasDocImage
  rw [List.all_eq_true] at h
  rw [List.any_eq_false]
  intro n hn
  have := h n hn
  intro hcon
  rw [Bool.and_eq_true] at hcon
  rw [hcon.1, hcon.2] at this
  simp at this

theorem foldl_pres_mem {γ β : Type} (f : γ → β → γ) (P : γ → Prop) :
    ∀ (l : List β), (∀ g a, a ∈ l → P g → P (f g a)) →
      ∀ g, P g → P (l.foldl f g) := by
  intro l
  induction l with
  | nil => intro _ g hg; exact hg
  | cons a as ih =>
    intro h g hg
    rw [List.foldl_cons]
    exact ih (fun g2 b hb => h g2 b (List.mem_cons_of_mem a hb)) (f g a)
      (h g a (List.mem_cons_self a as) hg)

/-- Preservation engine for one Cypher statement: a predicate preserved by
each MERGE clause the record triggers is preserved by the whole statement. -/
theorem neo4jInsert_pres (P : GraphState → Prop) (r : Rec)
    (h1 : ∀ g, P g → P { g with images := mergeSourceImage g.images r.url })
    (h2 : ∀ g (m : MatchRef), m ∈ wdFull r ∨ m ∈ wdPartial r → P g →
      P { g with images := mergeTargetImage g.images m.url })
    (h3 : ∀ g (a : LabelAnn), a ∈ laOf r → P g →
      P { g with labels := mergeKeyed g.labels a.mid a.description })
    (h4 : ∀ g (a : LabelAnn), a ∈ laOf r → P g →
      P { g with taggedLabel := mergeNode g.taggedLabel (r.url, a.mid, a.score) })
    (h5 : ∀ g (ty : String) (m : MatchRef),
      (m ∈ wdFull r ∧ ty = "full") ∨ (m ∈ wdPartial r ∧ ty = "partial") → P g →
      P { g with matchEdges := mergeNode g.matchEdges (r.url, m.url, ty) })
    (h6 : ∀ g (w : WebEnt), w ∈ wdEnts r → P g →
      P { g with webents := mergeKeyed g.webents w.entityId (w.description.getD "") })
    (h7 : ∀ g (w : WebEnt), w ∈ wdEnts r → P g →
      P { g with taggedWeb := mergeNode g.taggedWeb (r.url, w.entityId, w.score) })
    (h8 : ∀ g (m : MatchRef), m ∈ wdPages r → P g →
      P { g with pages := mergeNode g.pages m.url })
    (h9 : ∀ g (m : MatchRef), m ∈ wdPages r → P g →
      P { g with inPage := mergeNode g.inPage (r.url, m.url) })
    (h10 : ∀ g (lm : LandmarkAnn), lm ∈ lmOf r → P g →
      P { g with landmarks := mergeNode g.landmarks (lm.mid, lm.description.getD "") })
    (h11 : ∀ g (lm : LandmarkAnn), lm ∈ lmOf r → P g →
      P { g with containsE := mergeNode g.containsE (r.url, (lm.mid, lm.description.getD ""), lm.score) })
    (h12 : ∀ g (lm : LandmarkAnn), lm ∈ lmOf r → ∀ loc ∈ lm.locations, P g →
      P { g with locations := mergeNode g.locations (loc.latitude, loc.longitude) })
    (h13 : ∀ g (lm : LandmarkAnn), lm ∈ lmOf r → ∀ loc ∈ lm.locations, P g →
      P { g with locatedAt := mergeNode g.locatedAt ((lm.mid, lm.description.getD ""), loc.latitude, loc.longitude) })
    (g : GraphState) (hp : P g) : P (neo4jInsert g r) := by
  simp only [neo4jInsert]
  apply foldl_pres_mem _ P (lmOf r)
  · intro g2 lm hlm hp2
    apply foldl_pres_mem _ P lm.locations
    · intro g3 loc hloc hp3
      exact h13 _ lm hlm loc hloc (h12 _ lm hlm loc hloc hp3)
    · exact h11 _ lm hlm (h10 _ lm hlm hp2)
  · apply foldl_pres_mem _ P (wdPages r)
    · intro g2 m hm hp2
      exact h9 _ m hm (h8 _ m hm hp2)
    · apply foldl_pres_mem _ P (wdEnts r)
      · intro g2 w hw hp2
        exact h7 _ w hw (h6 _ w hw hp2)
      · apply foldl_pres_mem _ P (wdPartial r)
        · intro g2 m hm hp2
          exact h5 _ "partial" m (Or.inr ⟨hm, rfl⟩) (h2 _ m (Or.inr hm) hp2)
        · apply foldl_pres_mem _ P (wdFull r)
          · intro g2 m hm hp2
            exact h5 _ "full" m (Or.inl ⟨hm, rfl⟩) (h2 _ m (Or.inl hm) hp2)
          · apply foldl_pres_mem _ P (laOf r)
            · intro g2 a ha hp2
              exact h4 _ a ha (h3 _ a ha hp2)
            · exact h1 g hp

/-- All facts a record leaves in the graph: its image is a document, and every
annotation it mentions exists with its edge. -/
def Ingested (g : GraphState) (r : Rec) : Prop :=
  imageDocOK g.images r.url = true
  ∧ (∀ a ∈ laOf r, hasKey g.labels a.mid = true
      ∧ g.taggedLabel.contains (r.url, a.mid, a.score) = true)
  ∧ (∀ m ∈ wdFull r, hasImageAny g.images m.url = true
      ∧ g.matchEdges.contains (r.url, m.url, "full") = true)
  ∧ (∀ m ∈ wdPartial r, hasImageAny g.images m.url = true
      ∧ g.matchEdges.contains (r.url, m.url, "partial") = true)
  ∧ (∀ w ∈ wdEnts r, hasKey g.webents w.entityId = true
      ∧ g.taggedWeb.contains (r.url, w.entityId, w.score) = true)
  ∧ (∀ m ∈ wdPages r, g.pages.contains m.url = true
      ∧ g.inPage.contains (r.url, m.url) = true)
  ∧ (∀ lm ∈ lmOf r, g.landmarks.contains (lm.mid, lm.description.getD "") = true
      ∧ g.containsE.contains (r.url, (lm.mid, lm.description.getD ""), lm.score) = true
      ∧ ∀ loc ∈ lm.locations, g.locations.contains (loc.latitude, loc.longitude) = true
          ∧ g.locatedAt.contains ((lm.mid, lm.description.getD ""), loc.latitude, loc.longitude) = true)

/-- The facts of one record survive the ingestion of any other record. -/
theorem ingested_insert_mono {g : GraphState} {r r2 : Rec}
    (h : Ingested g r) : Ingested (neo4jInsert g r2) r := by
  refine neo4jInsert_pres (fun g => Ingested g r) r2 ?_ ?_ ?_ ?_ ?_ ?_ ?_ ?_ ?_
    ?_ ?_ ?_ ?_ g h
  all_goals
    intro g
  · intro ⟨c1, c2, c3, c4, c5, c6, c7⟩
    exact ⟨imageDocOK_mergeSource c1, c2,
      fun m hm => ⟨hasImageAny_mergeSource ((c3 m hm).1), (c3 m hm).2⟩,
      fun m hm => ⟨hasImageAny_mergeSource ((c4 m hm).1), (c4 m hm).2⟩, c5, c6, c7⟩
  · intro m _ ⟨c1, c2, c3, c4, c5, c6, c7⟩
    exact ⟨imageDocOK_mergeTarget c1, c2,
      fun m2 hm2 => ⟨hasImageAny_mergeTarget ((c3 m2 hm2).1), (c3 m2 hm2).2⟩,
      fun m2 hm2 => ⟨hasImageAny_mergeTarget ((c4 m2 hm2).1), (c4 m2 hm2).2⟩,
      c5, c6, c7⟩
  · intro a _ ⟨c1, c2, c3, c4, c5, c6, c7⟩
    exact ⟨c1, fun b hb => ⟨hasKey_mergeKeyed ((c2 b hb).1), (c2 b hb).2⟩,
      c3, c4, c5, c6, c7⟩
  · intro a _ ⟨c1, c2, c3, c4, c5, c6, c7⟩
    exact ⟨c1, fun b hb => ⟨(c2 b hb).1, contains_mergeNode ((c2 b hb).2)⟩,
      c3, c4, c5, c6, c7⟩
  · intro ty m _ ⟨c1, c2, c3, c4, c5, c6, c7⟩
    exact ⟨c1, c2,
      fun m2 hm2 => ⟨(c3 m2 hm2).1, contains_mergeNode ((c3 m2 hm2).2)⟩,
      fun m2 hm2 => ⟨(c4 m2 hm2).1, contains_mergeNode ((c4 m2 hm2).2)⟩,
      c5, c6, c7⟩
  · intro w _ ⟨c1, c2, c3, c4, c5, c6, c7⟩
    exact ⟨c1, c2, c3, c4,
      fun w2 hw2 => ⟨hasKey_mergeKeyed ((c5 w2 hw2).1), (c5 w2 hw2).2⟩, c6, c7⟩
  · intro w _ ⟨c1, c2, c3, c4, c5, c6, c7⟩
    exact ⟨c1, c2, c3, c4,
      fun w2 hw2 => ⟨(c5 w2 hw2).1, contains_mergeNode ((c5 w2 hw2).2)⟩, c6, c7⟩
  · intro m _ ⟨c1, c2, c3, c4, c5, c6, c7⟩
    exact ⟨c1, c2, c3, c4, c5,
      fun m2 hm2 => ⟨contains_mergeNode ((c6 m2 hm2).1), (c6 m2 hm2).2⟩, c7⟩
  · intro m _ ⟨c1, c2, c3, c4, c5, c6, c7⟩
    exact ⟨c1, c2, c3, c4, c5,
      fun m2 hm2 => ⟨(c6 m2 hm2).1, contains_mergeNode ((c6 m2 hm2).2)⟩, c7⟩
  · intro lm _ ⟨c1, c2, c3, c4, c5, c6, c7⟩
    exact ⟨c1, c2, c3, c4, c5, c6,
      fun lm2 hlm2 => ⟨contains_mergeNode ((c7 lm2 hlm2).1), (c7 lm2 hlm2).2.1,
        (c7 lm2 hlm2).2.2⟩⟩
  · intro lm _ ⟨c1, c2, c3, c4, c5, c6, c7⟩
    exact ⟨c1, c2, c3, c4, c5, c6,
      fun lm2 hlm2 => ⟨(c7 lm2 hlm2).1, contains_mergeNode ((c7 lm2 hlm2).2.1),
        (c7 lm2 hlm2).2.2⟩⟩
  · intro lm _ loc _ ⟨c1, c2, c3, c4, c5, c6, c7⟩
    exact ⟨c1, c2, c3, c4, c5, c6,
      fun lm2 hlm2 => ⟨(c7 lm2 hlm2).1, (c7 lm2 hlm2).2.1,
        fun loc2 hloc2 => ⟨contains_mergeNode (((c7 lm2 hlm2).2.2) loc2 hloc2).1,
          (((c7 lm2 hlm2).2.2) loc2 hloc2).2⟩⟩⟩
  · intro lm _ loc _ ⟨c1, c2, c3, c4, c5, c6, c7⟩
    exact ⟨c1, c2, c3, c4, c5, c6,
      fun lm2 hlm2 => ⟨(c7 lm2 hlm2).1, (c7 lm2 hlm2).2.1,
        fun loc2 hloc2 => ⟨(((c7 lm2 hlm2).2.2) loc2 hloc2).1,
          contains_mergeNode (((c7 lm2 hlm2).2.2) loc2 hloc2).2⟩⟩⟩

/-- After one statement, every fact of the record holds in the graph. -/
theorem neo4jInsert_ingests (g : GraphState) (r : Rec) :
    Ingested (neo4jInsert g r) r := by
  simp only [neo4jInsert]
  refine ⟨?_, ?_, ?_, ?_, ?_, ?_, ?_⟩
  · -- the record image is a document
    apply foldl_pres_mem _ (fun g : GraphState => imageDocOK g.images r.url = true) (lmOf r)
    · intro g2 lm hlm hp
      apply foldl_pres_mem _ (fun g : GraphState => imageDocOK g.images r.url = true) lm.locations
      · intro g3 loc hloc hq
        exact hq
      · exact hp
    · apply foldl_pres_mem _ (fun g : GraphState => imageDocOK g.images r.url = true) (wdPages r)
      · intro g2 m hm hp
        exact hp
      · apply foldl_pres_mem _ (fun g : GraphState => imageDocOK g.images r.url = true) (wdEnts r)
        · intro g2 w hw hp
          exact hp
        · apply foldl_pres_mem _ (fun g : GraphState => imageDocOK g.images r.url = true)
            (wdPartial r)
          · intro g2 m hm hp
            exact imageDocOK_mergeTarget hp
          · apply foldl_pres_mem _ (fun g : GraphState => imageDocOK g.images r.url = true)
              (wdFull r)
            · intro g2 m hm hp
              exact imageDocOK_mergeTarget hp
            · apply foldl_pres_mem _ (fun g : GraphState => imageDocOK g.images r.url = true)
                (laOf r)
              · intro g2 a ha hp
                exact hp
              · exact imageDocOK_mergeSource_self g.images r.url
  · -- labels and TAGGED edges
    intro a ha
    apply foldl_pres_mem _ (fun g : GraphState => hasKey g.labels a.mid = true
      ∧ g.taggedLabel.contains (r.url, a.mid, a.score) = true) (lmOf r)
    · intro g2 lm hlm hp
      apply foldl_pres_mem _ (fun g : GraphState => hasKey g.labels a.mid = true
        ∧ g.taggedLabel.contains (r.url, a.mid, a.score) = true) lm.locations
      · intro g3 loc hloc hq
        exact hq
      · exact hp
    · apply foldl_pres_mem _ (fun g : GraphState => hasKey g.labels a.mid = true
        ∧ g.taggedLabel.contains (r.url, a.mid, a.score) = true) (wdPages r)
      · intro g2 m hm hp
        exact hp
      · apply foldl_pres_mem _ (fun g : GraphState => hasKey g.labels a.mid = true
          ∧ g.taggedLabel.contains (r.url, a.mid, a.score) = true) (wdEnts r)
        · intro g2 w hw hp
          exact hp
        · apply foldl_pres_mem _ (fun g : GraphState => hasKey g.labels a.mid = true
            ∧ g.taggedLabel.contains (r.url, a.mid, a.score) = true) (wdPartial r)
          · intro g2 m hm hp
            exact hp
          · apply foldl_pres_mem _ (fun g : GraphState => hasKey g.labels a.mid = true
              ∧ g.taggedLabel.contains (r.url, a.mid, a.score) = true) (wdFull r)
            · intro g2 m hm hp
              exact hp
            · apply foldl_establish _ (fun (a : LabelAnn) (g : GraphState) => hasKey g.labels a.mid = true
                ∧ g.taggedLabel.contains (r.url, a.mid, a.score) = true)
                ?_ ?_ (laOf r) _ a ha
              · intro g2 b
                exact ⟨hasKey_mergeKeyed_self g2.labels b.mid b.description,
                  contains_mergeNode_self g2.taggedLabel (r.url, b.mid, b.score)⟩
              · intro g2 b c hq
                exact ⟨hasKey_mergeKeyed hq.1, contains_mergeNode hq.2⟩
  · -- full matches
    intro m hm
    apply foldl_pres_mem _ (fun g : GraphState => hasImageAny g.images m.url = true
      ∧ g.matchEdges.contains (r.url, m.url, "full") = true) (lmOf r)
    · intro g2 lm hlm hp
      apply foldl_pres_mem _ (fun g : GraphState => hasImageAny g.images m.url = true
        ∧ g.matchEdges.contains (r.url, m.url, "full") = true) lm.locations
      · intro g3 loc hloc hq
        exact hq
      · exact hp
    · apply foldl_pres_mem _ (fun g : GraphState => hasImageAny g.images m.url = true
        ∧ g.matchEdges.contains (r.url, m.url, "full") = true) (wdPages r)
      · intro g2 m2 hm2 hp
        exact hp
      · apply foldl_pres_mem _ (fun g : GraphState => hasImageAny g.images m.url = true
          ∧ g.matchEdges.contains (r.url, m.url, "full") = true) (wdEnts r)
        · intro g2 w hw hp
          exact hp
        · apply foldl_pres_mem _ (fun g : GraphState => hasImageAny g.images m.url = true
            ∧ g.matchEdges.contains (r.url, m.url, "full") = true) (wdPartial r)
          · intro g2 m2 hm2 hp
            exact ⟨hasImageAny_mergeTarget hp.1, contains_mergeNode hp.2⟩
          · apply foldl_establish _ (fun (m : MatchRef) (g : GraphState) => hasImageAny g.images m.url = true
              ∧ g.matchEdges.contains (r.url, m.url, "full") = true)
              ?_ ?_ (wdFull r) _ m hm
            · intro g2 m2
              exact ⟨hasImageAny_mergeTarget_self g2.images m2.url,
                contains_mergeNode_self _ (r.url, m2.url, "full")⟩
            · intro g2 m2 m3 hq
              exact ⟨hasImageAny_mergeTarget hq.1, contains_mergeNode hq.2⟩
  · -- partial matches
    intro m hm
    apply foldl_pres_mem _ (fun g : GraphState => hasImageAny g.images m.url = true
      ∧ g.matchEdges.contains (r.url, m.url, "partial") = true) (lmOf r)
    · intro g2 lm hlm hp
      apply foldl_pres_mem _ (fun g : GraphState => hasImageAny g.images m.url = true
        ∧ g.matchEdges.contains (r.url, m.url, "partial") = true) lm.locations
      · intro g3 loc hloc hq
        exact hq
      · exact hp
    · apply foldl_pres_mem _ (fun g : GraphState => hasImageAny g.images m.url = true
        ∧ g.matchEdges.contains (r.url, m.url, "partial") = true) (wdPages r)
      · intro g2 m2 hm2 hp
        exact hp
      · apply foldl_pres_mem _ (fun g : GraphState => hasImageAny g.images m.url = true
          ∧ g.matchEdges.contains (r.url, m.url, "partial") = true) (wdEnts r)
        · intro g2 w hw hp
          exact hp
        · apply foldl_establish _ (fun (m : MatchRef) (g : GraphState) => hasImageAny g.images m.url = true
            ∧ g.matchEdges.contains (r.url, m.url, "partial") = true)
            ?_ ?_ (wdPartial r) _ m hm
          · intro g2 m2
            exact ⟨hasImageAny_mergeTarget_self g2.images m2.url,
              contains_mergeNode_self _ (r.url, m2.url, "partial")⟩
          · intro g2 m2 m3 hq
            exact ⟨hasImageAny_mergeTarget hq.1, contains_mergeNode hq.2⟩
  · -- web entities
    intro w hw
    apply foldl_pres_mem _ (fun g : GraphState => hasKey g.webents w.entityId = true
      ∧ g.taggedWeb.contains (r.url, w.entityId, w.score) = true) (lmOf r)
    · intro g2 lm hlm hp
      apply foldl_pres_mem _ (fun g : GraphState => hasKey g.webents w.entityId = true
        ∧ g.taggedWeb.contains (r.url, w.entityId, w.score) = true) lm.locations
      · intro g3 loc hloc hq
        exact hq
      · exact hp
    · apply foldl_pres_mem _ (fun g : GraphState => hasKey g.webents w.entityId = true
        ∧ g.taggedWeb.contains (r.url, w.entityId, w.score) = true) (wdPages r)
      · intro g2 m hm hp
        exact hp
      · apply foldl_establish _ (fun (w : WebEnt) (g : GraphState) => hasKey g.webents w.entityId = true
          ∧ g.taggedWeb.contains (r.url, w.entityId, w.score) = true)
          ?_ ?_ (wdEnts r) _ w hw
        · intro g2 w2
          exact ⟨hasKey_mergeKeyed_self g2.webents w2.entityId (w2.description.getD ""),
            contains_mergeNode_self _ (r.url, w2.entityId, w2.score)⟩
        · intro g2 w2 w3 hq
          exact ⟨hasKey_mergeKeyed hq.1, contains_mergeNode hq.2⟩
  · -- pages
    intro m hm
    apply foldl_pres_mem _ (fun g : GraphState => g.pages.contains m.url = true
      ∧ g.inPage.contains (r.url, m.url) = true) (lmOf r)
    · intro g2 lm hlm hp
      apply foldl_pres_mem _ (fun g : GraphState => g.pages.contains m.url = true
        ∧ g.inPage.contains (r.url, m.url) = true) lm.locations
      · intro g3 loc hloc hq
        exact hq
      · exact hp
    · apply foldl_establish _ (fun (m : MatchRef) (g : GraphState) => g.pages.contains m.url = true
        ∧ g.inPage.contains (r.url, m.url) = true)
        ?_ ?_ (wdPages r) _ m hm
      · intro g2 m2
        exact ⟨contains_mergeNode_self _ m2.url,
          contains_mergeNode_self _ (r.url, m2.url)⟩
      · intro g2 m2 m3 hq
        exact ⟨contains_mergeNode hq.1, contains_mergeNode hq.2⟩
  · -- landmarks, CONTAINS edges, locations, LOCATED_AT edges
    intro lm hlm
    apply foldl_establish _ (fun (lm : LandmarkAnn) (g : GraphState) =>
      g.landmarks.contains (lm.mid, lm.description.getD "") = true
      ∧ g.containsE.contains (r.url, (lm.mid, lm.description.getD ""), lm.score) = true
      ∧ ∀ loc ∈ lm.locations, g.locations.contains (loc.latitude, loc.longitude) = true
          ∧ g.locatedAt.contains ((lm.mid, lm.description.getD ""), loc.latitude, loc.longitude) = true)
      ?_ ?_ (lmOf r) _ lm hlm
    · intro g2 lm2
      refine ⟨?_, ?_, ?_⟩
      · apply foldl_pres_mem _ (fun g : GraphState =>
          g.landmarks.contains (lm2.mid, lm2.description.getD "") = true) lm2.locations
        · intro g3 loc hloc hq
          exact hq
        · exact contains_mergeNode_self _ _
      · apply foldl_pres_mem _ (fun g : GraphState =>
          g.containsE.contains (r.url, (lm2.mid, lm2.description.getD ""), lm2.score) = true)
          lm2.locations
        · intro g3 loc hloc hq
          exact hq
        · exact contains_mergeNode_self _ _
      · intro loc hloc
        apply foldl_establish _ (fun (loc : LatLng) (g : GraphState) =>
          g.locations.contains (loc.latitude, loc.longitude) = true
          ∧ g.locatedAt.contains ((lm2.mid, lm2.description.getD ""), loc.latitude, loc.longitude) = true)
          ?_ ?_ lm2.locations _ loc hloc
        · intro g3 loc2
          exact ⟨contains_mergeNode_self _ _, contains_mergeNode_self _ _⟩
        · intro g3 loc2 loc3 hq
          exact ⟨contains_mergeNode hq.1, contains_mergeNode hq.2⟩
    · intro g2 lm2 lm3 hq
      refine ⟨?_, ?_, ?_⟩
      · apply foldl_pres_mem _ (fun g : GraphState =>
          g.landmarks.contains (lm2.mid, lm2.description.getD "") = true) lm3.locations
        · intro g3 loc hloc hq2
          exact hq2
        · exact contains_mergeNode hq.1
      · apply foldl_pres_mem _ (fun g : GraphState =>
          g.containsE.contains (r.url, (lm2.mid, lm2.description.getD ""), lm2.score) = true)
          lm3.locations
        · intro g3 loc hloc hq2
          exact hq2
        · exact contains_mergeNode hq.2.1
      · intro loc hloc
        apply foldl_pres_mem _ (fun g : GraphState =>
          g.locations.contains (loc.latitude, loc.longitude) = true
          ∧ g.locatedAt.contains ((lm2.mid, lm2.description.getD ""), loc.latitude, loc.longitude) = true)
          lm3.locations
        · intro g3 loc2 hloc2 hq2
          exact ⟨contains_mergeNode hq2.1, contains_mergeNode hq2.2⟩
        · exact hq.2.2 loc hloc

theorem map_id_of_eq {α : Type} (l : List α) (f : α → α) (h : ∀ x ∈ l, f x = x) :
    l.map f = l := by
  induction l with
  | nil => rfl
  | cons a as ih =>
    rw [List.map_cons, h a (List.mem_cons_self a as),
      ih (fun x hx => h x (List.mem_cons_of_mem a hx))]

theorem mergeSourceImage_eq {imgs : List ImgNode} {u : String}
    (h : imageDocOK imgs u = true) : mergeSourceImage imgs u = imgs := by
  unfold imageDocOK at h
  rw [Bool.and_eq_true] at h
  unfold mergeSourceImage
  rw [if_pos h.1]
  apply map_id_of_eq
  intro n hn
  apply setDocIfUrl_id
  rw [List.all_eq_true] at *
  exact h.2 n hn

theorem mergeTargetImage_eq {imgs : List ImgNode} {u : String}
    (h : hasImageAny imgs u = true) : mergeTargetImage imgs u = imgs := by
  unfold hasImageAny at h
  unfold mergeTargetImage
  rw [if_pos h]

theorem mergeKeyed_eq {ks : List (String × String)} {k d : String}
    (h : hasKey ks k = true) : mergeKeyed ks k d = ks := by
  unfold hasKey at h
  unfold mergeKeyed
  rw [if_pos h]

theorem mergeNode_eq {β : Type} [BEq β] {ns : List β} {x : β}
    (h : ns.contains x = true) : mergeNode ns x = ns := by
  unfold mergeNode
  rw [if_pos h]

/-- A record all of whose facts already hold is a no-op: MERGE matches
everything and changes nothing. -/
theorem neo4jInsert_fixed {g : GraphState} {r : Rec} (hin : Ingested g r) :
    neo4jInsert g r = g := by
  obtain ⟨c1, c2, c3, c4, c5, c6, c7⟩ := hin
  simp only [neo4jInsert]
  have e0 : ({ g with images := mergeSourceImage g.images r.url }) = g := by
    rw [mergeSourceImage_eq c1]
  rw [e0]
  have e1 : (laOf r).foldl (fun g ann =>
      { { g with labels := mergeKeyed g.labels ann.mid ann.description } with
        taggedLabel := mergeNode ({ g with labels := mergeKeyed g.labels ann.mid ann.description }).taggedLabel (r.url, ann.mid, ann.score) }) g = g := by
    apply foldl_fixed
    intro a ha
    have h2 := c2 a ha
    simp only [mergeKeyed_eq h2.1, mergeNode_eq h2.2]
  rw [e1]
  have e2 : (wdFull r).foldl (fun g m =>
      { { g with images := mergeTargetImage g.images m.url } with
        matchEdges := mergeNode ({ g with images := mergeTargetImage g.images m.url }).matchEdges (r.url, m.url, "full") }) g = g := by
    apply foldl_fixed
    intro m hm
    have h3 := c3 m hm
    simp only [mergeTargetImage_eq h3.1, mergeNode_eq h3.2]
  rw [e2]
  have e3 : (wdPartial r).foldl (fun g m =>
      { { g with images := mergeTargetImage g.images m.url } with
        matchEdges := mergeNode ({ g with images := mergeTargetImage g.images m.url }).matchEdges (r.url, m.url, "partial") }) g = g := by
    apply foldl_fixed
    intro m hm
    have h4 := c4 m hm
    simp only [mergeTargetImage_eq h4.1, mergeNode_eq h4.2]
  rw [e3]
  have e4 : (wdEnts r).foldl (fun g w =>
      { { g with webents := mergeKeyed g.webents w.entityId (w.description.getD "") } with
        taggedWeb := mergeNode ({ g with webents := mergeKeyed g.webents w.entityId (w.description.getD "") }).taggedWeb (r.url, w.entityId, w.score) }) g = g := by
    apply foldl_fixed
    intro w hw
    have h5 := c5 w hw
    simp only [mergeKeyed_eq h5.1, mergeNode_eq h5.2]
  rw [e4]
  have e5 : (wdPages r).foldl (fun g m =>
      { { g with pages := mergeNode g.pages m.url } with
        inPage := mergeNode ({ g with pages := mergeNode g.pages m.url }).inPage (r.url, m.url) }) g = g := by
    apply foldl_fixed
    intro m hm
    have h6 := c6 m hm
    simp only [mergeNode_eq h6.1, mergeNode_eq h6.2]
  rw [e5]
  apply foldl_fixed
  intro lm hlm
  have h7 := c7 lm hlm
  simp only [mergeNode_eq h7.1, mergeNode_eq h7.2.1]
  apply foldl_fixed
  intro loc hloc
  have h8 := h7.2.2 loc hloc
  simp only [mergeNode_eq h8.1, mergeNode_eq h8.2]

theorem neo4jRun_ingested_mono {g : GraphState} {r : Rec} (rs : List Rec)
    (h : Ingested g r) : Ingested (neo4jRun g rs) r :=
  foldl_pres neo4jInsert (fun g => Ingested g r)
    (fun _ _ hp => ingested_insert_mono hp) rs g h

theorem neo4jRun_ingests (g : GraphState) (rs : List Rec) :
    ∀ r ∈ rs, Ingested (neo4jRun g rs) r := by
  induction rs generalizing g with
  | nil => intro r hr; simp at hr
  | cons r2 rs ih =>
    intro r hr
    rcases List.mem_cons.mp hr with rfl | hmem
    · exact neo4jRun_ingested_mono rs (neo4jInsert_ingests g r)
    · exact ih (neo4jInsert g r2) r hmem

theorem neo4jRun_fixed {g1 : GraphState} {rs : List Rec}
    (h : ∀ r ∈ rs, Ingested g1 r) : neo4jRun g1 rs = g1 := by
  induction rs with
  | nil => rfl
  | cons r rs ih =>
    unfold neo4jRun
    rw [List.foldl_cons, neo4jInsert_fixed (h r (List.mem_cons_self r rs))]
    exact ih (fun r2 hr2 => h r2 (List.mem_cons_of_mem r hr2))

/-- Re-running an identical record list against the graph it produced changes
nothing: full idempotence of the Neo4j ingestion. -/
theorem neo4jRun_idem (g : GraphState) (rs : List Rec) :
    neo4jRun (neo4jRun g rs) rs = neo4jRun g rs :=
  neo4jRun_fixed (neo4jRun_ingests g rs)

/-! ### Document-flag facts in the graph (for the monotonicity claim) -/

theorem neo4jInsert_hasDoc_mono {g : GraphState} {r : Rec} {u : String}
    (h : hasDocImage g.images u = true) :
    hasDocImage (neo4jInsert g r).images u = true := by
  refine neo4jInsert_pres (fun g => hasDocImage g.images u = true) r ?_ ?_ ?_ ?_
    ?_ ?_ ?_ ?_ ?_ ?_ ?_ ?_ ?_ g h
  · intro g hp
    exact hasDocImage_mergeSource hp
  · intro g m _ hp
    exact hasDocImage_mergeTarget hp
  all_goals intro g
  · intro a _ hp; exact hp
  · intro a _ hp; exact hp
  · intro ty m _ hp; exact hp
  · intro w _ hp; exact hp
  · intro w _ hp; exact hp
  · intro m _ hp; exact hp
  · intro m _ hp; exact hp
  · intro lm _ hp; exact hp
  · intro lm _ hp; exact hp
  · intro lm _ loc _ hp; exact hp
  · intro lm _ loc _ hp; exact hp

theorem neo4jRun_hasDoc_mono {g : GraphState} {u : String} (rs : List Rec)
    (h : hasDocImage g.images u = true) :
    hasDocImage (neo4jRun g rs).images u = true :=
  foldl_pres neo4jInsert (fun g => hasDocImage g.images u = true)
    (fun _ _ hp => neo4jInsert_hasDoc_mono hp) rs g h

/-- Ingesting a record as a source flags its url a document. -/
theorem neo4jInsert_hasDoc_self (g : GraphState) (r : Rec) :
    hasDocImage (neo4jInsert g r).images r.url = true := by
  simp only [neo4jInsert]
  apply foldl_pres_mem _ (fun g : GraphState => hasDocImage g.images r.url = true)
    (lmOf r)
  · intro g2 lm hlm hp
    apply foldl_pres_mem _ (fun g : GraphState => hasDocImage g.images r.url = true)
      lm.locations
    · intro g3 loc hloc hq
      exact hq
    · exact hp
  · apply foldl_pres_mem _ (fun g : GraphState => hasDocImage g.images r.url = true)
      (wdPages r)
    · intro g2 m hm hp
      exact hp
    · apply foldl_pres_mem _ (fun g : GraphState => hasDocImage g.images r.url = true)
        (wdEnts r)
      · intro g2 w hw hp
        exact hp
      · apply foldl_pres_mem _
          (fun g : GraphState => hasDocImage g.images r.url = true) (wdPartial r)
        · intro g2 m hm hp
          exact hasDocImage_mergeTarget hp
        · apply foldl_pres_mem _
            (fun g : GraphState => hasDocImage g.images r.url = true) (wdFull r)
          · intro g2 m hm hp
            exact hasDocImage_mergeTarget hp
          · apply foldl_pres_mem _
              (fun g : GraphState => hasDocImage g.images r.url = true) (laOf r)
            · intro g2 a ha hp
              exact hp
            · exact hasDocImage_mergeSource_self g.images r.url

/-- A url only ever seen as a match target keeps `isDocument = false`:
match-target MERGE sets the flag false on creation and never updates it. -/
theorem neo4jInsert_noDoc {g : GraphState} {r : Rec} {u : String}
    (hne : u ≠ r.url) (h : noDocImage g.images u = true) :
    noDocImage (neo4jInsert g r).images u = true := by
  refine neo4jInsert_pres (fun g => noDocImage g.images u = true) r ?_ ?_ ?_ ?_
    ?_ ?_ ?_ ?_ ?_ ?_ ?_ ?_ ?_ g h
  · intro g hp
    exact noDocImage_mergeSource hne hp
  · intro g m _ hp
    exact noDocImage_mergeTarget hp
  all_goals intro g
  · intro a _ hp; exact hp
  · intro a _ hp; exact hp
  · intro ty m _ hp; exact hp
  · intro w _ hp; exact hp
  · intro w _ hp; exact hp
  · intro m _ hp; exact hp
  · intro m _ hp; exact hp
  · intro lm _ hp; exact hp
  · intro lm _ hp; exact hp
  · intro lm _ loc _ hp; exact hp
  · intro lm _ loc _ hp; exact hp

/-! ## MongoDB embedding (`populateMongo`)

Documents are the raw records; `update_one({url}, {$set: jsonData},
upsert=True)` replaces the first document with a matching url, or appends. -/

/-- The collection, in insertion order. -/
abbrev MongoState := List Rec

/-- `update_one` with `upsert=True` keyed on `url`. -/
def upsertDoc : MongoState → Rec → MongoState
  | [], r => [r]
  | d :: ds, r => if d.url == r.url then r :: ds else d :: upsertDoc ds r

/-- The record loop of `populateMongo`. -/
def populateMongo (m : MongoState) (rs : List Rec) : MongoState :=
  rs.foldl upsertDoc m

/-- Some document carries url `u`. -/
def hasUrl (m : MongoState) (u : String) : Bool :=
  m.any (fun d => d.url == u)

theorem upsertDoc_length {m : MongoState} {r : Rec}
    (h : hasUrl m r.url = true) : (upsertDoc m r).length = m.length := by
  induction m with
  | nil => simp [hasUrl] at h
  | cons d ds ih =>
    unfold upsertDoc
    split
    · rfl
    · rename_i hne
      unfold hasUrl at h
      rw [List.any_cons] at h
      rw [Bool.or_eq_true] at h
      rcases h with h | h
      · rw [beq_iff_eq] at h
        exact absurd (by simp [h]) hne
      · simp [ih h]

theorem upsertDoc_hasUrl_mono {m : MongoState} {r : Rec} {u : String}
    (h : hasUrl m u = true) : hasUrl (upsertDoc m r) u = true := by
  induction m with
  | nil => simp [hasUrl] at h
  | cons d ds ih =>
    unfold upsertDoc
    split
    · rename_i he
      unfold hasUrl at h ⊢
      rw [List.any_cons] at h ⊢
      rw [Bool.or_eq_true] at h ⊢
      rcases h with h | h
      · left
        rw [beq_iff_eq] at he h ⊢
        rw [← he, h]
      · right
        exact h
    · unfold hasUrl at h ⊢
      rw [List.any_cons] at h ⊢
      rw [Bool.or_eq_true] at h ⊢
      rcases h with h | h
      · left
        exact h
      · right
        exact ih h

theorem upsertDoc_hasUrl_self (m : MongoState) (r : Rec) :
    hasUrl (upsertDoc m r) r.url = true := by
  induction m with
  | nil => simp [upsertDoc, hasUrl]
  | cons d ds ih =>
    unfold upsertDoc
    split
    · simp [hasUrl]
    · unfold hasUrl
      rw [List.any_cons, Bool.or_eq_true]
      right
      exact ih

theorem populateMongo_hasUrl (m : MongoState) (rs : List Rec) :
    ∀ r ∈ rs, hasUrl (populateMongo m rs) r.url = true := by
  intro r hr
  exact foldl_establish upsertDoc (fun r m => hasUrl m r.url = true)
    (fun m2 r2 => upsertDoc_hasUrl_self m2 r2)
    (fun m2 r2 r3 hq => upsertDoc_hasUrl_mono hq) rs m r hr

theorem populateMongo_length {rs : List Rec} {m : MongoState}
    (h : ∀ r ∈ rs, hasUrl m r.url = true) :
    (populateMongo m rs).length = m.length := by
  induction rs generalizing m with
  | nil => rfl
  | cons r rs ih =>
    unfold populateMongo
    rw [List.foldl_cons]
    have h1 : (populateMongo (upsertDoc m r) rs).length = (upsertDoc m r).length :=
      ih (fun r2 hr2 =>
        upsertDoc_hasUrl_mono (h r2 (List.mem_cons_of_mem r hr2)))
    calc ((rs.foldl upsertDoc (upsertDoc m r)).length)
        = (upsertDoc m r).length := h1
      _ = m.length := upsertDoc_length (h r (List.mem_cons_self r rs))

/-- Re-running the same record list changes the document count by nothing:
each upsert finds its url already present. -/
theorem populateMongo_idem_length (m : MongoState) (rs : List Rec) :
    (populateMongo (populateMongo m rs) rs).length = (populateMongo m rs).length :=
  populateMongo_length (populateMongo_hasUrl m rs)

/-! ## The cross-model query engine (queries 1-3 of each backend)

All backends sort by count descending with the label ascending as tie-break;
label order is bytewise, written out so results evaluate by `decide`. -/

/-- Bytewise comparison of char lists. -/
def charsLe : List Char → List Char → Bool
  | [], _ => true
  | _ :: _, [] => false
  | c :: cs, d :: ds =>
    if c.toNat < d.toNat then true
    else if d.toNat < c.toNat then false
    else charsLe cs ds

/-- Bytewise string order (the collation all three stores apply here). -/
def strLe (a b : String) : Bool := charsLe a.data b.data

/-- BSON order on a possibly-missing string field: null sorts first. -/
def optStrLe : Option String → Option String → Bool
  | none, _ => true
  | some _, none => false
  | some a, some b => strLe a b

/-- Insert into a list sorted by count descending, then key ascending. -/
def insertSorted {κ : Type} (le : κ → κ → Bool) (x : κ × Nat) :
    List (κ × Nat) → List (κ × Nat)
  | [] => [x]
  | y :: ys =>
    if y.2 < x.2 || (x.2 == y.2 && le x.1 y.1) then x :: y :: ys
    else y :: insertSorted le x ys

/-- ORDER BY count DESC, key ASC. -/
def sortCnt {κ : Type} (le : κ → κ → Bool) (l : List (κ × Nat)) :
    List (κ × Nat) :=
  l.foldr (insertSorted le) []

/-- Set of distinct group keys. -/
def dedupD {α : Type} [DecidableEq α] : List α → List α
  | [] => []
  | a :: as =>
    let r := dedupD as
    if a ∈ r then r else a :: r

/-- The url column of a row, as a string. -/
def urlStr (row : Dict) : String :=
  match lookupD row "url" with
  | some (Val.str u) => u
  | _ => ""

/-- The description column of a row, as a string. -/
def descStr (row : Dict) : String :=
  match lookupD row "description" with
  | some (Val.str d) => d
  | _ => ""

/-- SQL query 1: images joined to `image_contains_landmark`, grouped by url,
count descending then url, limit 10. -/
def query_1 (s : SqlState) : List (String × Nat) :=
  let imgs := tableRows s "image"
  let icls := tableRows s "image_contains_landmark"
  let joined := imgs.flatMap (fun img =>
    (icls.filter (fun icl => lookupD icl.2 "image_id" == some (Val.int img.1))).map
      (fun _ => urlStr img.2))
  let keys := dedupD joined
  let rows := keys.map (fun u => (u, joined.countP (fun v => v == u)))
  (sortCnt strLe rows).take 10

/-- SQL query 2: `landmark_located_at_location` joined to `landmark`, grouped
by description, HAVING count > 1, count descending then description. -/
def query_2 (s : SqlState) : List (String × Nat) :=
  let lls := tableRows s "landmark_located_at_location"
  let lms := tableRows s "landmark"
  let joined := lls.flatMap (fun lll =>
    (lms.filter (fun lm => lookupD lll.2 "landmark_id" == some (Val.int lm.1))).map
      (fun lm => descStr lm.2))
  let keys := dedupD joined
  let rows := (keys.map (fun d2 => (d2, joined.countP (fun v => v == d2)))).filter
    (fun p => 1 < p.2)
  sortCnt strLe rows

/-- SQL query 3: images joined to `image_matches_image` on either endpoint,
grouped by image id, count descending then url, limit 10. -/
def query_3 (s : SqlState) : List (String × Nat) :=
  let imgs := tableRows s "image"
  let imis := tableRows s "image_matches_image"
  let rows := imgs.filterMap (fun img =>
    let c := imis.countP (fun imi =>
      lookupD imi.2 "image_id1" == some (Val.int img.1)
      || lookupD imi.2 "image_id2" == some (Val.int img.1))
    if c = 0 then none else some (urlStr img.2, c))
  (sortCnt strLe rows).take 10

/-- Neo4j query 5 (same contract as SQL query 1). -/
def query_5 (g : GraphState) : List (String × Nat) :=
  let rows := g.images.filterMap (fun i =>
    let c := (g.containsE.filter (fun e => e.1 == i.url)).length
    if c = 0 then none else some (i.url, c))
  (sortCnt strLe rows).take 10

/-- Neo4j query 6 (same contract as SQL query 2, grouped by description). -/
def query_6 (g : GraphState) : List (String × Nat) :=
  let descs := dedupD (g.locatedAt.map (fun e => e.1.2))
  let rows := (descs.map (fun d2 =>
    (d2, (g.locatedAt.filter (fun e => e.1.2 == d2)).length))).filter
    (fun p => 1 < p.2)
  sortCnt strLe rows

/-- Neo4j query 7 (same contract as SQL query 3): MATCH edges traversed in
either direction, each relationship once. -/
def query_7 (g : GraphState) : List (String × Nat) :=
  let rows := g.images.filterMap (fun i =>
    let c := (g.matchEdges.filter (fun e => e.1 == i.url || e.2.1 == i.url)).length
    if c = 0 then none else some (i.url, c))
  (sortCnt strLe rows).take 10

/-- Neo4j query 9: multi-location landmarks grouped by Landmark NODE
(`mid` + `description`), not by description text. -/
def query_9 (g : GraphState) : List (String × Nat) :=
  let nodes := dedupD (g.locatedAt.map (fun e => e.1))
  let rows := ((nodes.map (fun n =>
    (n, (g.locatedAt.filter (fun e => e.1 == n)).length))).filter
    (fun p => 1 < p.2)).map (fun p => (p.1.2, p.2))
  sortCnt strLe rows

/-- Mongo pipeline 1: every document projected to the size of its
`landmarkAnnotations` array (0 when absent), sorted, limit 10. -/
def pipeline_1 (m : MongoState) : List (String × Nat) :=
  (sortCnt strLe (m.map (fun d =>
    (d.url, (d.response.landmarkAnnotations.getD []).length)))).take 10

/-- Mongo pipeline 2: unwind annotations and locations, group the distinct
(description, latLng) pairs per description, sort, then keep counts > 1. -/
def pipeline_2 (m : MongoState) : List (Option String × Nat) :=
  let pairs := m.flatMap (fun d => (d.response.landmarkAnnotations.getD []).flatMap
    (fun lma => lma.locations.map
      (fun loc => (lma.description, (loc.latitude, loc.longitude)))))
  let dp := dedupD pairs
  let keys := dedupD (dp.map (fun p => p.1))
  let rows := keys.map (fun k => (k, (dp.filter (fun p => p.1 == k)).length))
  (sortCnt optStrLe rows).filter (fun p => 1 < p.2)

/-- Mongo pipeline 3: every document projected to the concatenated size of
its partial and full match arrays, sorted, limit 10. -/
def pipeline_3 (m : MongoState) : List (String × Nat) :=
  (sortCnt strLe (m.map (fun d =>
    (d.url, (wdPartial d).length + (wdFull d).length)))).take 10

/-- The empty property graph. -/
def graphEmpty : GraphState :=
  ⟨[], [], [], [], [], [], [], [], [], [], [], []⟩

/-! ## Fixtures -/

/-- Minimal present-but-empty webDetection. -/
def wdEmpty : WebDetection :=
  { fullMatchingImages := none, partialMatchingImages := none,
    pagesWithMatchingImages := none, webEntities := some [] }

/-- Fixture record 1: two landmarks, a self full-match. -/
def fixRec1 : Rec :=
  { url := "a.jpg",
    response :=
      { labelAnnotations := some [],
        webDetection := some { wdEmpty with fullMatchingImages := some [⟨"a.jpg"⟩] },
        landmarkAnnotations := some
          [{ mid := "m1", description := some "Alps", score := 9,
             locations := [⟨1, 1⟩, ⟨2, 2⟩] },
           { mid := "m2", description := some "Tower", score := 8,
             locations := [⟨5, 5⟩] }] } }

/-- Fixture record 2: overlaps landmark m1/Alps and location (1,1). -/
def fixRec2 : Rec :=
  { url := "b.jpg",
    response :=
      { labelAnnotations := some [],
        webDetection := some { wdEmpty with fullMatchingImages := some [⟨"b.jpg"⟩] },
        landmarkAnnotations := some
          [{ mid := "m1", description := some "Alps", score := 9,
             locations := [⟨1, 1⟩, ⟨3, 3⟩] }] } }

/-- Fixture record 3: a landmark with no locations. -/
def fixRec3 : Rec :=
  { url := "c.jpg",
    response :=
      { labelAnnotations := some [],
        webDetection := some { wdEmpty with fullMatchingImages := some [⟨"c.jpg"⟩] },
        landmarkAnnotations := some
          [{ mid := "m3", description := some "Bay", score := 7,
             locations := [] }] } }

/-- A three-record fixture with overlapping landmarks and locations. -/
def fixC1 : List Rec := [fixRec1, fixRec2, fixRec3]

/-- A record with no landmark annotations at all. -/
def fixZ : Rec :=
  { url := "z.jpg",
    response :=
      { labelAnnotations := some [],
        webDetection := some wdEmpty,
        landmarkAnnotations := none } }

/-- A record that full-matches a not-yet-seen image url. -/
def fixT1 : Rec :=
  { url := "t1.jpg",
    response :=
      { labelAnnotations := some [],
        webDetection := some { wdEmpty with fullMatchingImages := some [⟨"t2.jpg"⟩] },
        landmarkAnnotations := none } }

/-- A later source record for the url previously seen only as a target. -/
def fixT2 : Rec :=
  { url := "t2.jpg",
    response :=
      { labelAnnotations := some [],
        webDetection := some wdEmpty,
        landmarkAnnotations := none } }

/-- A malformed record: `webDetection` is absent (unguarded access). -/
def fixBad : Rec :=
  { url := "x.jpg",
    response :=
      { labelAnnotations := some [],
        webDetection := none,
        landmarkAnnotations := none } }

/-- A malformed record: `labelAnnotations` is absent (unguarded access). -/
def fixNoLabels : Rec :=
  { url := "w.jpg",
    response :=
      { labelAnnotations := none,
        webDetection := some wdEmpty,
        landmarkAnnotations := none } }

/-- A well-formed record following the malformed one. -/
def fixGood : Rec :=
  { url := "y.jpg",
    response :=
      { labelAnnotations := some [],
        webDetection := some wdEmpty,
        landmarkAnnotations := none } }

/-- One label annotation with score 5. -/
def fixScore5 : Rec :=
  { url := "e.jpg",
    response :=
      { labelAnnotations := some
          [{ mid := "lm", description := "D", score := 5 }],
        webDetection := some wdEmpty,
        landmarkAnnotations := none } }

/-- The same label annotation with the score drifted to 6. -/
def fixScore6 : Rec :=
  { url := "e.jpg",
    response :=
      { labelAnnotations := some
          [{ mid := "lm", description := "D", score := 6 }],
        webDetection := some wdEmpty,
        landmarkAnnotations := none } }

/-- Statue-of-Liberty edge case, first landmark. -/
def fixSoL1 : Rec :=
  { url := "l1.jpg",
    response :=
      { labelAnnotations := some [],
        webDetection := some wdEmpty,
        landmarkAnnotations := some
          [{ mid := "sol1", description := some "Statue of Liberty", score := 5,
             locations := [⟨10, 10⟩] }] } }

/-- Statue-of-Liberty edge case, second landmark: same description, distinct
`mid`, one (different) location. -/
def fixSoL2 : Rec :=
  { url := "l2.jpg",
    response :=
      { labelAnnotations := some [],
        webDetection := some wdEmpty,
        landmarkAnnotations := some
          [{ mid := "sol2", description := some "Statue of Liberty", score := 5,
             locations := [⟨20, 20⟩] }] } }

/-! ## Derived stores for the fixtures -/

/-- Relational store of the three-record fixture. -/
def sqlC1 : SqlState := (populateSqlite [] fixC1).1

/-- Graph store of the three-record fixture. -/
def gC1 : GraphState := neo4jRun graphEmpty fixC1

/-- Document store of the three-record fixture. -/
def mC1 : MongoState := populateMongo [] fixC1

/-- Relational store of the Statue-of-Liberty pair. -/
def sqlC7 : SqlState := (populateSqlite [] [fixSoL1, fixSoL2]).1

/-- Graph store of the Statue-of-Liberty pair. -/
def gC7 : GraphState := neo4jRun graphEmpty [fixSoL1, fixSoL2]

/-- Document store of the Statue-of-Liberty pair. -/
def mC7 : MongoState := populateMongo [] [fixSoL1, fixSoL2]

/-- Store after ingesting the score-5 tagged label. -/
def sqlScore1 : SqlState := (populateSqlite [] [fixScore5]).1

/-- Store after additionally ingesting the score-6 drift of the same edge. -/
def sqlScore2 : SqlState := (populateSqlite sqlScore1 [fixScore6]).1

/-- Natural-key uniqueness of stored images, as the specification states it. -/
def imageUrlsUnique (s : SqlState) : Prop :=
  ((tableRows s "image").map (fun p => urlStr p.2)).Nodup

instance (s : SqlState) : Decidable (imageUrlsUnique s) := by
  unfold imageUrlsUnique; infer_instance

/-- With the four guarded arrays absent, every call the record can make goes
to one of the five label/web/image tables. -/
theorem usedCall_tables_absent {r : Rec} {wd : WebDetection}
    (h2 : r.response.webDetection = some wd)
    (h4 : wd.fullMatchingImages = none)
    (h5 : wd.partialMatchingImages = none)
    (h6 : wd.pagesWithMatchingImages = none)
    (h7 : r.response.landmarkAnnotations = none) :
    ∀ {t2 : String} {d : Dict}, UsedCall r t2 d →
      t2 = "image" ∨ t2 = "label" ∨ t2 = "image_tagged_label"
      ∨ t2 = "web_entity" ∨ t2 = "image_tagged_web_entity" := by
  intro t2 d hu
  have hfull : wdFull r = [] := by simp [wdFull, h2, h4]
  have hpart : wdPartial r = [] := by simp [wdPartial, h2, h5]
  have hpages : wdPages r = [] := by simp [wdPages, h2, h6]
  have hlm : lmOf r = [] := by simp [lmOf, h7]
  cases hu with
  | image => simp
  | label a ha => simp
  | taggedLabel i j a ha => simp
  | matchImage m hm => simp
  | matchEdge i j ty m hm =>
    rcases hm with ⟨hm, -⟩ | ⟨hm, -⟩
    · rw [hfull] at hm
      simp at hm
    · rw [hpart] at hm
      simp at hm
  | page m hm =>
    rw [hpages] at hm
    simp at hm
  | inPage i j m hm =>
    rw [hpages] at hm
    simp at hm
  | webent w hw => simp
  | taggedWeb i j w hw => simp
  | landmark l hl =>
    rw [hlm] at hl
    simp at hl
  | containsL i j l hl =>
    rw [hlm] at hl
    simp at hl
  | location l hl loc hloc =>
    rw [hlm] at hl
    simp at hl
  | locatedAt i j l hl loc hloc =>
    rw [hlm] at hl
    simp at hl

/-- Tables no call of the record touches are left unchanged. -/
theorem insertImage_tables_pres (r : Rec) (t : String)
    (hcalls : ∀ t2 d, UsedCall r t2 d → t2 ≠ t) (s : SqlState) :
    tableRows (insertImage s r).1 t = tableRows s t :=
  insertImage_pres (fun s2 => tableRows s2 t = tableRows s t) r
    (fun s2 t2 d hu hp => by
      show tableRows (getOrCreateRow s2 t2 d).1 t = tableRows s t
      rw [gocr_tableRows_ne (hcalls t2 d hu)]
      exact hp) s rfl

/-! ## The claims -/

/-- Extra fixture store: state after ingesting the match-target record. -/
def sqlT : SqlState := (insertImage [] fixT1).1

/-- Extra fixture store: graph after ingesting the match-target record. -/
def gT : GraphState := neo4jInsert graphEmpty fixT1

/-- C1 counterexample: cross-model equivalence fails for a record with no
landmark annotations — the Mongo query-1 pipeline lists it with count 0 while
the relational query omits it, so the claimed equivalence for every fixture
set is false at this input. -/
theorem claim1_counterexample :
    pipeline_1 (populateMongo [] [fixZ]) ≠ query_1 (populateSqlite [] [fixZ]).1 := by
  decide

/-- C1 (amended): for the exhibited three-record fixture with overlapping
landmarks and locations, queries 1-3 return identical ordered (label, count)
sequences across the relational, graph and document implementations; the
agreement is not universal over fixtures. -/
theorem claim1_fixture_equivalence :
    (populateSqlite [] fixC1).2 = some 3
    ∧ query_1 sqlC1 = [("a.jpg", 2), ("b.jpg", 1), ("c.jpg", 1)]
    ∧ query_5 gC1 = query_1 sqlC1
    ∧ pipeline_1 mC1 = query_1 sqlC1
    ∧ query_2 sqlC1 = [("Alps", 3)]
    ∧ query_6 gC1 = query_2 sqlC1
    ∧ pipeline_2 mC1 = (query_2 sqlC1).map (fun p => (some p.1, p.2))
    ∧ query_3 sqlC1 = [("a.jpg", 1), ("b.jpg", 1), ("c.jpg", 1)]
    ∧ query_7 gC1 = query_3 sqlC1
    ∧ pipeline_3 mC1 = query_3 sqlC1 := by
  decide

/-- C2: re-ingesting an identical record list against the store the first
ingestion produced creates nothing new in any backend: the relational and
graph stores are bit-identical after the second run, and the document count
is unchanged. -/
theorem claim2_reingest_idempotent :
    (∀ (s s1 : SqlState) (rs : List Rec) (n : Nat),
        populateSqlite s rs = (s1, some n) → populateSqlite s1 rs = (s1, some n))
    ∧ (∀ (g : GraphState) (rs : List Rec),
        populateNeo4j (populateNeo4j g rs).1 rs = ((populateNeo4j g rs).1, rs.length))
    ∧ (∀ (m : MongoState) (rs : List Rec),
        (populateMongo (populateMongo m rs) rs).length = (populateMongo m rs).length) := by
  refine ⟨?_, ?_, ?_⟩
  · intro s s1 rs n h
    exact populateSqlite_replay h (ext_refl s1)
  · intro g rs
    simp only [populateNeo4j_run]
    rw [neo4jRun_idem]
  · intro m rs
    exact populateMongo_idem_length m rs

/-- C2 witness: the three-record fixture ingests with count 3 and re-ingests
as a read-only no-op. -/
theorem claim2_reingest_idempotent_witness :
    populateSqlite (populateSqlite [] fixC1).1 fixC1
      = ((populateSqlite [] fixC1).1, some 3) :=
  claim2_reingest_idempotent.1 [] (populateSqlite [] fixC1).1 fixC1 3 (by decide)

/-- C3 counterexample: a url first resolved as a match target (default
`is_document = 0`) and later ingested as a source record (looked up with
`is_document = 1`) yields two image rows with the same url, so natural-key
uniqueness fails on the relational store. -/
theorem claim3_counterexample :
    ¬ imageUrlsUnique (populateSqlite [] [fixT1, fixT2]).1 := by
  decide

/-- C3 (amended): what the get-or-create discipline does guarantee is that no
two stored rows of one table agree on all stored attributes; rows may share a
declared natural key (two image rows may share a url). -/
theorem claim3_rows_distinct (rs : List Rec) (s : SqlState)
    (hd : RowsDistinct s) : RowsDistinct (populateSqlite s rs).1 :=
  populateSqlite_rowsDistinct rs s hd

/-- C3 witness: the invariant holds from the empty store over the fixture. -/
theorem claim3_rows_distinct_witness :
    RowsDistinct (populateSqlite [] fixC1).1 :=
  claim3_rows_distinct fixC1 [] List.Pairwise.nil

/-- C4 counterexample: an absent `labelAnnotations` array makes the relational
ingestion of a record with a url and a response fail (unguarded access), so an
absent source array can cause an error. -/
theorem claim4_counterexample : (insertImage [] fixNoLabels).2 = false := by
  decide

/-- C4 (amended): for the arrays the source does guard — fullMatchingImages,
partialMatchingImages, pagesWithMatchingImages, landmarkAnnotations — absence
causes no error and emits zero tuples for the corresponding relations,
provided the unguarded labelAnnotations, webDetection and webEntities are
present. -/
theorem claim4_absent_guarded (s : SqlState) (r : Rec) (la : List LabelAnn)
    (wd : WebDetection) (we : List WebEnt)
    (h1 : r.response.labelAnnotations = some la)
    (h2 : r.response.webDetection = some wd)
    (h3 : wd.webEntities = some we)
    (h4 : wd.fullMatchingImages = none)
    (h5 : wd.partialMatchingImages = none)
    (h6 : wd.pagesWithMatchingImages = none)
    (h7 : r.response.landmarkAnnotations = none) :
    (insertImage s r).2 = true
    ∧ tableRows (insertImage s r).1 "image_matches_image"
        = tableRows s "image_matches_image"
    ∧ tableRows (insertImage s r).1 "page" = tableRows s "page"
    ∧ tableRows (insertImage s r).1 "image_in_page" = tableRows s "image_in_page"
    ∧ tableRows (insertImage s r).1 "landmark" = tableRows s "landmark"
    ∧ tableRows (insertImage s r).1 "image_contains_landmark"
        = tableRows s "image_contains_landmark"
    ∧ tableRows (insertImage s r).1 "location" = tableRows s "location"
    ∧ tableRows (insertImage s r).1 "landmark_located_at_location"
        = tableRows s "landmark_located_at_location" := by
  have hP : ∀ t : String, t ≠ "image" → t ≠ "label" → t ≠ "image_tagged_label" →
      t ≠ "web_entity" → t ≠ "image_tagged_web_entity" →
      tableRows (insertImage s r).1 t = tableRows s t := by
    intro t n1 n2 n3 n4 n5
    apply insertImage_tables_pres
    intro t2 d hu
    rcases usedCall_tables_absent h2 h4 h5 h6 h7 hu with rfl | rfl | rfl | rfl | rfl
    · exact fun he => n1 he.symm
    · exact fun he => n2 he.symm
    · exact fun he => n3 he.symm
    · exact fun he => n4 he.symm
    · exact fun he => n5 he.symm
  refine ⟨insertImage_total s h1 h2 h3, ?_, ?_, ?_, ?_, ?_, ?_, ?_⟩ <;>
    (apply hP <;> decide)

/-- C4 witness: a record with the three unguarded fields present and all four
guarded arrays absent ingests successfully and emits no tuples for them. -/
theorem claim4_absent_guarded_witness :
    (insertImage [] fixGood).2 = true
    ∧ tableRows (insertImage [] fixGood).1 "image_matches_image"
        = tableRows [] "image_matches_image"
    ∧ tableRows (insertImage [] fixGood).1 "page" = tableRows [] "page"
    ∧ tableRows (insertImage [] fixGood).1 "image_in_page"
        = tableRows [] "image_in_page"
    ∧ tableRows (insertImage [] fixGood).1 "landmark" = tableRows [] "landmark"
    ∧ tableRows (insertImage [] fixGood).1 "image_contains_landmark"
        = tableRows [] "image_contains_landmark"
    ∧ tableRows (insertImage [] fixGood).1 "location" = tableRows [] "location"
    ∧ tableRows (insertImage [] fixGood).1 "landmark_located_at_location"
        = tableRows [] "landmark_located_at_location" :=
  claim4_absent_guarded [] fixGood [] wdEmpty [] rfl rfl rfl rfl rfl rfl rfl

/-- C5 counterexample: a record whose `webDetection` is absent fails after its
image row is already written — the store is changed by the failed record, so
per-record all-or-nothing atomicity does not hold for the relational path. -/
theorem claim5_counterexample :
    (insertImage [] fixBad).2 = false ∧ (insertImage [] fixBad).1 ≠ [] := by
  decide

/-- C5 (amended): a failing record leaves a valid extension of the prior
state containing the writes made before the failure point; in particular the
record url is always flagged as a document, success or not. -/
theorem claim5_partial_writes :
    ∀ (s : SqlState) (r : Rec),
      DbExt s (insertImage s r).1 ∧ sqlIsDoc (insertImage s r).1 r.url = true :=
  fun s r => ⟨insertImage_ext s r, insertImage_isdoc s r⟩

/-- C6 counterexample: one malformed record aborts the whole relational run —
the following well-formed record is never ingested and no attempted/succeeded
summary is produced. -/
theorem claim6_counterexample :
    (populateSqlite [] [fixBad, fixGood]).2 = none
    ∧ sqlIsDoc (populateSqlite [] [fixBad, fixGood]).1 "y.jpg" = false := by
  decide

/-- C6 (amended): the relational coordinator has no per-record error handling,
so the first failure aborts the run with the remaining records unprocessed,
while the Neo4j coordinator runs one statement per record and reports the
loaded count. -/
theorem claim6_abort_vs_continue :
    (∀ (s : SqlState) (r : Rec) (rs : List Rec) (s1 : SqlState),
        insertImage s r = (s1, false) → populateSqlite s (r :: rs) = (s1, none))
    ∧ (∀ (g : GraphState) (rs : List Rec),
        populateNeo4j g rs = (neo4jRun g rs, rs.length)) := by
  constructor
  · intro s r rs s1 h
    unfold populateSqlite
    rw [h]
  · intro g rs
    exact populateNeo4j_run g rs

/-- C6 witness: the malformed record aborts a run containing it. -/
theorem claim6_abort_vs_continue_witness :
    populateSqlite [] [fixBad] = ((insertImage [] fixBad).1, none) :=
  claim6_abort_vs_continue.1 [] fixBad [] (insertImage [] fixBad).1 (by decide)

/-- C7: two landmarks sharing the description Statue of Liberty with distinct
mids and one location each appear with count 2 in every description-grouped
multi-location query and in no node-grouped (natural-key) variant: the two
variants diverge on exactly this store. -/
theorem claim7_distinct_key_landmarks :
    query_2 sqlC7 = [("Statue of Liberty", 2)]
    ∧ query_6 gC7 = [("Statue of Liberty", 2)]
    ∧ pipeline_2 mC7 = [(some "Statue of Liberty", 2)]
    ∧ query_9 gC7 = [] := by
  decide

/-- C8: edge resolution matches on the full attribute tuple: a found row makes
`getOrCreateRow` a read-only no-op, re-ingesting the identical record changes
nothing, and drifting only the score adds a second edge (the first is kept
untouched) in both the relational and the graph store. -/
theorem claim8_edge_full_tuple :
    (∀ (s : SqlState) (t : String) (d : Dict) (i : Nat),
        findRow s t d = some i → getOrCreateRow s t d = (s, some i))
    ∧ (tableRows sqlScore1 "image_tagged_label").length = 1
    ∧ (populateSqlite sqlScore1 [fixScore5]).1 = sqlScore1
    ∧ (tableRows sqlScore2 "image_tagged_label").length = 2
    ∧ (tableRows sqlScore2 "image_tagged_label").take 1
        = tableRows sqlScore1 "image_tagged_label"
    ∧ (tableRows sqlScore2 "label").length = 1
    ∧ (neo4jRun graphEmpty [fixScore5, fixScore6]).taggedLabel
        = [("e.jpg", "lm", 5), ("e.jpg", "lm", 6)] := by
  refine ⟨?_, ?_⟩
  · intro s t d i h
    exact gocr_found h
  · decide

/-- C8 witness: replaying the stored label lookup on the score-5 store is a
read-only no-op returning the existing id. -/
theorem claim8_edge_full_tuple_witness :
    getOrCreateRow sqlScore1 "label"
      [("mid", Val.str "lm"), ("description", Val.str "D")]
      = (sqlScore1, some 1) :=
  claim8_edge_full_tuple.1 sqlScore1 "label"
    [("mid", Val.str "lm"), ("description", Val.str "D")] 1 (by decide)

/-- C9: the document flag of a url is monotone in both write paths: it
survives any further ingestion, is set by ingesting the url as a source
record, and a url seen only as a match target stays unflagged. -/
theorem claim9_isdocument_monotonic :
    (∀ (s : SqlState) (u : String) (rs : List Rec),
        sqlIsDoc s u = true → sqlIsDoc (populateSqlite s rs).1 u = true)
    ∧ (∀ (s : SqlState) (r : Rec), sqlIsDoc (insertImage s r).1 r.url = true)
    ∧ (∀ (s : SqlState) (r : Rec) (u : String), u ≠ r.url →
        sqlIsDoc s u = false → sqlIsDoc (insertImage s r).1 u = false)
    ∧ (∀ (g : GraphState) (u : String) (rs : List Rec),
        hasDocImage g.images u = true →
        hasDocImage (neo4jRun g rs).images u = true)
    ∧ (∀ (g : GraphState) (r : Rec),
        hasDocImage (neo4jInsert g r).images r.url = true)
    ∧ (∀ (g : GraphState) (r : Rec) (u : String), u ≠ r.url →
        noDocImage g.images u = true →
        noDocImage (neo4jInsert g r).images u = true
        ∧ hasDocImage (neo4jInsert g r).images u = false) := by
  refine ⟨?_, ?_, ?_, ?_, ?_, ?_⟩
  · intro s u rs h
    exact sqlIsDoc_mono (populateSqlite_ext rs s) h
  · intro s r
    exact insertImage_isdoc s r
  · intro s r u hne h
    exact insertImage_isdoc_false hne s h
  · intro g u rs h
    exact neo4jRun_hasDoc_mono rs h
  · intro g r
    exact neo4jInsert_hasDoc_self g r
  · intro g r u hne h
    have h2 := neo4jInsert_noDoc hne h
    exact ⟨h2, noDocImage_hasDocImage_false h2⟩

/-- C9 witness: all six parts exercised on the match-target-then-source
fixture. -/
theorem claim9_isdocument_monotonic_witness :
    sqlIsDoc (populateSqlite sqlT [fixGood]).1 "t1.jpg" = true
    ∧ sqlIsDoc (insertImage [] fixT2).1 fixT2.url = true
    ∧ sqlIsDoc (insertImage sqlT fixGood).1 "t2.jpg" = false
    ∧ hasDocImage (neo4jRun gT [fixGood]).images "t1.jpg" = true
    ∧ hasDocImage (neo4jInsert graphEmpty fixT2).images fixT2.url = true
    ∧ (noDocImage (neo4jInsert gT fixGood).images "t2.jpg" = true
        ∧ hasDocImage (neo4jInsert gT fixGood).images "t2.jpg" = false) :=
  ⟨claim9_isdocument_monotonic.1 sqlT "t1.jpg" [fixGood] (by decide),
   claim9_isdocument_monotonic.2.1 [] fixT2,
   claim9_isdocument_monotonic.2.2.1 sqlT fixGood "t2.jpg" (by decide) (by decide),
   claim9_isdocument_monotonic.2.2.2.1 gT "t1.jpg" [fixGood] (by decide),
   claim9_isdocument_monotonic.2.2.2.2.1 graphEmpty fixT2,
   claim9_isdocument_monotonic.2.2.2.2.2 gT fixGood "t2.jpg" (by decide) (by decide)⟩

/-- C10: in the sequential embedding, a valid dictionary never reaches the
final raise of `getOrCreateRow`: the function always returns an id, and when
the initial SELECT finds nothing, re-executing the same SELECT after the
INSERT finds the newly inserted row. -/
theorem claim10_no_raise (s : SqlState) (t : String) (d : Dict)
    (hv : validDict t d) :
    (getOrCreateRow s t d).2.isSome = true
    ∧ (findRow s t d = none →
        findRow (s ++ [⟨t, nextId s t, mkRow t d⟩]) t d = some (nextId s t)) := by
  constructor
  · obtain ⟨i, hi⟩ := gocr_total s hv
    rw [hi]
    rfl
  · intro hf
    rw [findRow_append_none hf]
    unfold findRow
    simp [rowMatches_mkRow hv]

/-- C10 witness: a fresh label row is found by the re-executed SELECT. -/
theorem claim10_no_raise_witness :
    (getOrCreateRow [] "label"
      [("mid", Val.str "x"), ("description", Val.str "y")]).2.isSome = true
    ∧ findRow ([] ++ [⟨"label", nextId [] "label",
        mkRow "label" [("mid", Val.str "x"), ("description", Val.str "y")]⟩])
        "label" [("mid", Val.str "x"), ("description", Val.str "y")]
        = some (nextId [] "label") :=
  ⟨(claim10_no_raise [] "label"
      [("mid", Val.str "x"), ("description", Val.str "y")] (by decide)).1,
   (claim10_no_raise [] "label"
      [("mid", Val.str "x"), ("description", Val.str "y")] (by decide)).2
      (by decide)⟩
